import Mathlib

/-!
Shallow embedding of the alert-reconciliation core of `reddit-mod-from-discord`
(`models.py`, `store.py`, the reconciliation parts of `bot.py`, and the modlog
fetch of `reddit_client.py`), together with theorems settling the frozen claims
about it.

Modelling conventions:
* Unix timestamps (Python floats used only for arithmetic and comparison) are
  modelled as `Int` seconds.
* `time.time()` is passed in explicitly as a `now : Int` parameter; calls that
  happen within one operation are modelled as reading the same clock value.
* The SQLite database is a value of type `DB` holding the four tables as lists;
  each `BotStore` method becomes a pure function on `DB`.
* JSON dictionaries (`dict[str, Any]`) are association lists over `JValue`;
  `json.dumps`/`json.loads` round-tripping in `save_view`/`get_view` is the
  identity on these dictionaries.
* External collaborators (Discord channel/message operations, Reddit fetches)
  are oracles carried in a `PollEnv` record; a cycle is a pure function of the
  database, the configuration and those oracles.
-/

/-- Python `Literal["submission", "comment"]` (models.py). -/
inductive ThingKind where
  | submission
  | comment
deriving DecidableEq, Repr

/-- String value of a `ThingKind`, as stored in dictionaries and DB rows. -/
def kindStr : ThingKind → String
  | .submission => "submission"
  | .comment => "comment"

/-- models.py `ReportedItem`: one flagged item as fetched from Reddit. -/
structure ReportedItem where
  fullname : String
  kind : ThingKind
  subreddit : String
  author : String
  permalink : String
  link_url : Option String
  media_url : Option String
  thumbnail_url : Option String
  title : String
  snippet : String
  num_reports : Int
  created_utc : Int
  num_comments : Option Int
  locked : Bool
  reports_ignored : Bool
  removed : Bool
  approved : Bool
  user_reports : List String
  mod_reports : List String
deriving DecidableEq, Repr

/-- models.py `ReportViewPayload`: the mutable display snapshot of one alert. -/
structure ReportViewPayload where
  fullname : String
  kind : ThingKind
  subreddit : String
  author : String
  permalink : String
  link_url : Option String
  media_url : Option String
  thumbnail_url : Option String
  title : String
  snippet : String
  num_reports : Int
  created_utc : Int
  num_comments : Option Int
  locked : Bool
  reports_ignored : Bool
  removed : Bool
  approved : Bool
  user_reports : List String
  mod_reports : List String
  handled : Bool := false
  action_log : List String := []
  view_version : Int := 1
  setup_id : Option String := none
deriving DecidableEq, Repr

/-- models.py `ReportViewPayload.from_reported_item`. -/
def ReportViewPayload.from_reported_item (item : ReportedItem)
    (setup_id : Option String) : ReportViewPayload :=
  { fullname := item.fullname
    kind := item.kind
    subreddit := item.subreddit
    author := item.author
    permalink := item.permalink
    link_url := item.link_url
    media_url := item.media_url
    thumbnail_url := item.thumbnail_url
    title := item.title
    snippet := item.snippet
    num_reports := item.num_reports
    created_utc := item.created_utc
    num_comments := item.num_comments
    locked := item.locked
    reports_ignored := item.reports_ignored
    removed := item.removed
    approved := item.approved
    user_reports := item.user_reports
    mod_reports := item.mod_reports
    setup_id := setup_id }

/-- JSON values as stored in `alert_views.payload_json`. Numbers are `Int`
(timestamps modelled as integer seconds). -/
inductive JValue where
  | jnull
  | jbool (b : Bool)
  | jint (n : Int)
  | jstr (s : String)
  | jlist (xs : List JValue)

/-- A Python dictionary with string keys, as an association list. -/
abbrev JDict := List (String × JValue)

/-- Python `d.get(k, dflt)` on a dictionary. -/
def dictGet (d : JDict) (k : String) (dflt : JValue) : JValue :=
  match d.find? (fun kv => kv.fst == k) with
  | some kv => kv.snd
  | none => dflt

/-- Python `str(v)` applied to a JSON value. The (unreachable for payload
dictionaries) list case is abstracted to a fixed marker string. -/
def pyStr : JValue → String
  | .jstr s => s
  | .jnull => "None"
  | .jbool b => if b then "True" else "False"
  | .jint n => toString n
  | .jlist _ => "[list]"

/-- Python `int(v)`; raises (`.error`) on values `int()` rejects. -/
def pyInt : JValue → Except Unit Int
  | .jint n => .ok n
  | .jbool b => .ok (if b then 1 else 0)
  | .jstr s => match s.toInt? with
    | some n => .ok n
    | none => .error ()
  | _ => .error ()

/-- Python `float(v)` (timestamps modelled as integer seconds). -/
def pyFloat : JValue → Except Unit Int
  | .jint n => .ok n
  | .jbool b => .ok (if b then 1 else 0)
  | .jstr s => match s.toInt? with
    | some n => .ok n
    | none => .error ()
  | _ => .error ()

/-- Python `bool(v)` truthiness of a JSON value. -/
def pyBool : JValue → Bool
  | .jnull => false
  | .jbool b => b
  | .jint n => n != 0
  | .jstr s => s != ""
  | .jlist xs => !xs.isEmpty

/-- Python `not s.strip()`: the string is empty or all whitespace. -/
def pyStripEmpty (s : String) : Bool :=
  s.toList.all (fun c => c.isWhitespace)

/-- Encoding of an optional string field in a dictionary. -/
def optStr : Option String → JValue
  | none => .jnull
  | some s => .jstr s

/-- Encoding of an optional integer field in a dictionary. -/
def optInt : Option Int → JValue
  | none => .jnull
  | some n => .jint n

/-- models.py `ReportViewPayload.to_dict`. -/
def ReportViewPayload.to_dict (p : ReportViewPayload) : JDict :=
  [("view_version", .jint p.view_version),
   ("fullname", .jstr p.fullname),
   ("kind", .jstr (kindStr p.kind)),
   ("subreddit", .jstr p.subreddit),
   ("author", .jstr p.author),
   ("permalink", .jstr p.permalink),
   ("link_url", optStr p.link_url),
   ("media_url", optStr p.media_url),
   ("thumbnail_url", optStr p.thumbnail_url),
   ("title", .jstr p.title),
   ("snippet", .jstr p.snippet),
   ("num_reports", .jint p.num_reports),
   ("created_utc", .jint p.created_utc),
   ("num_comments", optInt p.num_comments),
   ("locked", .jbool p.locked),
   ("reports_ignored", .jbool p.reports_ignored),
   ("removed", .jbool p.removed),
   ("approved", .jbool p.approved),
   ("user_reports", .jlist (p.user_reports.map .jstr)),
   ("mod_reports", .jlist (p.mod_reports.map .jstr)),
   ("handled", .jbool p.handled),
   ("action_log", .jlist (p.action_log.map .jstr)),
   ("setup_id", optStr p.setup_id)]

/-- models.py `ReportViewPayload.from_dict`. A Python exception raised by one
of the coercions (`int`, `float`) is modelled as `.error`. The source leaves a
non-null `num_comments` value as-is (the dict is loosely typed); the embedding
restricts it to the field's declared `int | None` type and rejects other
values. -/
def ReportViewPayload.from_dict (d : JDict) : Except Unit ReportViewPayload := do
  let kind : ThingKind :=
    match dictGet d "kind" .jnull with
    | .jstr s =>
      if s = "submission" then .submission
      else if s = "comment" then .comment
      else .submission
    | _ => .submission
  let user_reports : List JValue :=
    match dictGet d "user_reports" .jnull with
    | .jlist xs => xs
    | _ => []
  let mod_reports : List JValue :=
    match dictGet d "mod_reports" .jnull with
    | .jlist xs => xs
    | _ => []
  let action_log : List JValue :=
    match dictGet d "action_log" .jnull with
    | .jlist xs => xs
    | _ => []
  let setup_id : Option String :=
    match dictGet d "setup_id" .jnull with
    | .jnull => none
    | .jstr s => some s
    | v => some (pyStr v)
  let link_url : Option String :=
    match dictGet d "link_url" .jnull with
    | .jstr s => if pyStripEmpty s then none else some s
    | _ => none
  let media_url : Option String :=
    match dictGet d "media_url" .jnull with
    | .jstr s => if pyStripEmpty s then none else some s
    | _ => none
  let thumbnail_url : Option String :=
    match dictGet d "thumbnail_url" .jnull with
    | .jstr s => if pyStripEmpty s then none else some s
    | _ => none
  let view_version ← pyInt (dictGet d "view_version" (.jint 1))
  let num_reports ← pyInt (dictGet d "num_reports" (.jint 0))
  let created_utc ← pyFloat (dictGet d "created_utc" (.jint 0))
  let num_comments : Option Int ←
    match dictGet d "num_comments" .jnull with
    | .jnull => pure none
    | .jint n => pure (some n)
    | _ => .error ()
  pure
    { view_version
      fullname := pyStr (dictGet d "fullname" (.jstr ""))
      kind
      subreddit := pyStr (dictGet d "subreddit" (.jstr ""))
      author := pyStr (dictGet d "author" (.jstr "[deleted]"))
      permalink := pyStr (dictGet d "permalink" (.jstr ""))
      link_url
      media_url
      thumbnail_url
      title := pyStr (dictGet d "title" (.jstr ""))
      snippet := pyStr (dictGet d "snippet" (.jstr ""))
      num_reports
      created_utc
      num_comments
      locked := pyBool (dictGet d "locked" (.jbool false))
      reports_ignored := pyBool (dictGet d "reports_ignored" (.jbool false))
      removed := pyBool (dictGet d "removed" (.jbool false))
      approved := pyBool (dictGet d "approved" (.jbool false))
      user_reports := user_reports.map pyStr
      mod_reports := mod_reports.map pyStr
      handled := pyBool (dictGet d "handled" (.jbool false))
      action_log := action_log.map pyStr
      setup_id }

/-- The per-tenant configuration fields of config.py `ResolvedSettings` that
the reconciliation core reads. Note that bot.py also reads
`settings.modlog_max_age_days` (bot.py lines 440, 500 and 717), but no such
field exists on the `Settings`/`ResolvedSettings` dataclasses in config.py, so
each of those attribute reads raises `AttributeError` at runtime; every such
read sits inside a `try`/`except` whose handler logs and abandons the block, so
the modlog retention prune and the modlog history augmentation never execute.
The embedding models those blocks accordingly. -/
structure ResolvedSettings where
  post_report_threshold : Int
  comment_report_threshold : Int
  max_item_age_hours : Int
  modlog_fetch_limit : Int
  reddit_subreddit : Option String
deriving DecidableEq, Repr

/-- bot.py `RedditModBot._passes_threshold`. -/
def passes_threshold (payload : ReportViewPayload) (settings : ResolvedSettings) : Bool :=
  if payload.kind = .comment then
    settings.comment_report_threshold ≤ payload.num_reports
  else
    settings.post_report_threshold ≤ payload.num_reports

/-- bot.py `RedditModBot._passes_age` (`now` models `time.time()`). -/
def passes_age (payload : ReportViewPayload) (settings : ResolvedSettings)
    (now : Int) : Bool :=
  if settings.max_item_age_hours ≤ 0 then true
  else if payload.created_utc ≤ 0 then true
  else
    let max_age_s := settings.max_item_age_hours * 3600
    now - payload.created_utc ≤ max_age_s

/-- One row of the `reported_items` table (store.py schema); primary key is
(`setup_id`, `fullname`). -/
structure ReportedRow where
  setup_id : String
  guild_id : Int
  fullname : String
  thing_kind : String
  subreddit : String
  first_reported_at : Int
  last_seen_at : Int
  report_count : Int
  handled : Bool
  discord_channel_id : Option Int
  discord_message_id : Option Int
deriving DecidableEq, Repr

/-- One row of the `alert_views` table; primary key is `message_id`. The
`payload_json` column (a JSON string in SQLite) is modelled as the dictionary
itself: `json.dumps`/`json.loads` round-trip is the identity. -/
structure ViewRow where
  message_id : Int
  channel_id : Int
  guild_id : Int
  payload_json : JDict
  created_at : Int

/-- One row of the `modlog_entries` table; the primary key is the whole
tuple. -/
structure ModlogRow where
  setup_id : String
  fullname : String
  created_utc : Int
  line : String
deriving DecidableEq, Repr

/-- The SQLite database of `BotStore`: four tables. `modlog_state` maps a
`setup_id` to its stored watermark (`last_seen_utc`). -/
structure DB where
  reported_items : List ReportedRow
  alert_views : List ViewRow
  modlog_entries : List ModlogRow
  modlog_state : List (String × Int)

/-- The empty database (fresh schema). -/
def DB.empty : DB := ⟨[], [], [], []⟩

/-- SQL `SELECT ... WHERE setup_id = ? AND fullname = ?` on `reported_items`
(at most one row exists thanks to the primary key; the model takes the first
match). -/
def findRow (db : DB) (setup_id fullname : String) : Option ReportedRow :=
  db.reported_items.find? (fun r => r.setup_id == setup_id && r.fullname == fullname)

/-- SQL `UPDATE ... WHERE p` on a table: rewrite every matching row. -/
def updateRows {α : Type} (p : α → Bool) (f : α → α) (l : List α) : List α :=
  l.map (fun r => if p r then f r else r)

/-- store.py `BotStore.should_alert` (`now` models `time.time()`). Returns the
boolean result together with the updated database. -/
def should_alert (db : DB) (item : ReportedItem) (setup_id : String)
    (guild_id : Int) (now : Int) : Bool × DB :=
  match findRow db setup_id item.fullname with
  | none =>
    let row : ReportedRow :=
      { setup_id
        guild_id
        fullname := item.fullname
        thing_kind := kindStr item.kind
        subreddit := item.subreddit
        first_reported_at := now
        last_seen_at := now
        report_count := item.num_reports
        handled := false
        discord_channel_id := none
        discord_message_id := none }
    (true, { db with reported_items := db.reported_items ++ [row] })
  | some row =>
    let db' : DB :=
      { db with
        reported_items :=
          updateRows
            (fun r => r.setup_id == setup_id && r.fullname == item.fullname)
            (fun r => { r with last_seen_at := now, report_count := item.num_reports })
            db.reported_items }
    if row.discord_message_id.isNone then (true, db')
    else if row.handled then (false, db')
    else (false, db')

/-- store.py `BotStore.get_view`. -/
def get_view (db : DB) (message_id : Int) : Option ViewRow :=
  db.alert_views.find? (fun v => v.message_id == message_id)

/-- Descending insertion by an integer key (used to model SQL
`ORDER BY ... DESC`). -/
def insertDescBy {α : Type} (key : α → Int) (x : α) : List α → List α
  | [] => [x]
  | y :: ys => if key y ≤ key x then x :: y :: ys else y :: insertDescBy key x ys

/-- Descending sort by an integer key (models SQL `ORDER BY ... DESC`). -/
def sortDescBy {α : Type} (key : α → Int) : List α → List α
  | [] => []
  | x :: xs => insertDescBy key x (sortDescBy key xs)

/-- store.py `BotStore.list_unhandled_alerts`: unhandled, message-bound rows
inner-joined with `alert_views` on the bound message id, newest-seen first,
limited. -/
def list_unhandled_alerts (db : DB) (setup_id : String) (limit : Nat) :
    List (String × Int × Int) :=
  let rows := db.reported_items.filter (fun r =>
    r.setup_id == setup_id &&
    r.handled == false &&
    r.discord_message_id.isSome &&
    r.discord_channel_id.isSome &&
    db.alert_views.any (fun v => r.discord_message_id == some v.message_id))
  (((sortDescBy (fun r => r.last_seen_at) rows).take limit).filterMap fun r =>
    match r.discord_channel_id, r.discord_message_id with
    | some c, some m => some (r.fullname, c, m)
    | _, _ => none)

/-- store.py `BotStore.set_discord_message`: bind a sent message and clear
`handled`. -/
def set_discord_message (db : DB) (fullname setup_id : String)
    (channel_id message_id : Int) : DB :=
  { db with
    reported_items :=
      updateRows
        (fun r => r.setup_id == setup_id && r.fullname == fullname)
        (fun r => { r with
          discord_channel_id := some channel_id
          discord_message_id := some message_id
          handled := false })
        db.reported_items }

/-- store.py `BotStore.clear_discord_message`. -/
def clear_discord_message (db : DB) (fullname setup_id : String) : DB :=
  { db with
    reported_items :=
      updateRows
        (fun r => r.setup_id == setup_id && r.fullname == fullname)
        (fun r => { r with discord_channel_id := none, discord_message_id := none })
        db.reported_items }

/-- store.py `BotStore.get_alert_message`: `(channel_id?, message_id?,
handled)`. -/
def get_alert_message (db : DB) (fullname setup_id : String) :
    Option Int × Option Int × Bool :=
  match findRow db setup_id fullname with
  | none => (none, none, false)
  | some row => (row.discord_channel_id, row.discord_message_id, row.handled)

/-- store.py `BotStore.mark_handled`. -/
def mark_handled (db : DB) (fullname setup_id : String) : DB :=
  { db with
    reported_items :=
      updateRows
        (fun r => r.setup_id == setup_id && r.fullname == fullname)
        (fun r => { r with handled := true })
        db.reported_items }

/-- store.py `BotStore.save_view`: insert, or on a `message_id` conflict
update only `payload_json` and `created_at`. -/
def save_view (db : DB) (rec : ViewRow) : DB :=
  if db.alert_views.any (fun v => v.message_id == rec.message_id) then
    { db with
      alert_views :=
        updateRows (fun v => v.message_id == rec.message_id)
          (fun v => { v with payload_json := rec.payload_json, created_at := rec.created_at })
          db.alert_views }
  else
    { db with alert_views := db.alert_views ++ [rec] }

/-- store.py `BotStore.delete_view`. -/
def delete_view (db : DB) (message_id : Int) : DB :=
  { db with alert_views := db.alert_views.filter (fun v => v.message_id != message_id) }

/-- store.py `BotStore.get_modlog_state`. -/
def get_modlog_state (db : DB) (setup_id : String) : Option Int :=
  (db.modlog_state.find? (fun kv => kv.fst == setup_id)).map (fun kv => kv.snd)

/-- store.py `BotStore.update_modlog_state` (upsert). -/
def update_modlog_state (db : DB) (setup_id : String) (last_seen_utc : Int) : DB :=
  if db.modlog_state.any (fun kv => kv.fst == setup_id) then
    { db with
      modlog_state :=
        updateRows (fun kv => kv.fst == setup_id)
          (fun kv => (kv.fst, last_seen_utc)) db.modlog_state }
  else
    { db with modlog_state := db.modlog_state ++ [(setup_id, last_seen_utc)] }

/-- store.py `BotStore.save_modlog_entries`: `INSERT OR IGNORE` of each
`(fullname, created_utc, line)` entry under the full-tuple primary key. -/
def save_modlog_entries (db : DB) (setup_id : String)
    (entries : List (String × Int × String)) : DB :=
  entries.foldl
    (fun db e =>
      let row : ModlogRow := ⟨setup_id, e.fst, e.snd.fst, e.snd.snd⟩
      if db.modlog_entries.contains row then db
      else { db with modlog_entries := db.modlog_entries ++ [row] })
    db

/-- The rows selected by store.py `BotStore.list_modlog_entries` before the
projection to `line`: filter by key and optional age cutoff, newest first,
limited, then reversed to oldest-first. -/
def listModlogRows (db : DB) (setup_id fullname : String)
    (max_age_s : Option Int) (limit : Nat) (now : Int) : List ModlogRow :=
  let rows := db.modlog_entries.filter (fun r =>
    r.setup_id == setup_id && r.fullname == fullname &&
    (match max_age_s with
     | none => true
     | some a => now - a ≤ r.created_utc))
  (((sortDescBy (fun r => r.created_utc) rows).take limit).reverse)

/-- store.py `BotStore.list_modlog_entries`: the selected lines,
oldest-first. -/
def list_modlog_entries (db : DB) (setup_id fullname : String)
    (max_age_s : Option Int) (limit : Nat) (now : Int) : List String :=
  (listModlogRows db setup_id fullname max_age_s limit now).map (fun r => r.line)

/-- Python `str.lower()`, via the character list (kernel-computable, unlike
`String.toLower`). -/
def strToLower (s : String) : String := String.mk (s.toList.map Char.toLower)

/-- Python `str.startswith(pre)`, via character lists (kernel-computable,
unlike `String.startsWith`). -/
def strStartsWith (s pre : String) : Bool := pre.toList.isPrefixOf s.toList

/-- One raw entry of the external moderation log as consumed by
reddit_client.py `_fetch_recent_modlog_entries_sync`. `created_utc = none`
models an absent or non-numeric `created_utc` attribute (coerced to `0.0` by
the source); `mod = none` models an absent moderator; `target_fullname = none`
models an absent or non-string target. -/
structure RawAction where
  actionName : String
  mod : Option String
  created_utc : Option Int
  details : Option String
  target_fullname : Option String
deriving DecidableEq, Repr

/-- reddit_client.py `RedditService._format_modlog_entry`. The
`strftime("%Y-%m-%d %H:%M UTC")` rendering of a numeric timestamp is
abstracted to its decimal seconds followed by the UTC marker. -/
def formatModlogEntry (a : RawAction) : String :=
  let action_name := if a.actionName = "" then "unknown" else a.actionName
  let mod_name :=
    match a.mod with
    | none => "unknown"
    | some s => s
  let stamp :=
    match a.created_utc with
    | some t => toString t ++ " UTC"
    | none => "unknown time"
  let extra :=
    match a.details with
    | some d => if d = "" then "" else " (" ++ d ++ ")"
    | none => ""
  "modlog: " ++ action_name ++ " by u/" ++ mod_name ++ " at " ++ stamp ++ extra

/-- The iteration core of reddit_client.py
`_fetch_recent_modlog_entries_sync`: walk the listing in order, stop at the
first action whose (truthy) timestamp is below `min_created_utc`, skip the
bot's own actions and actions without a usable `t1_`/`t3_` target, and emit
`(target_fullname, created_utc, line)` triples. -/
def fetchModlogLoop (bot_username_norm : Option String) (min_created_utc : Option Int) :
    List RawAction → List (String × Int × String)
  | [] => []
  | a :: rest =>
    let created := a.created_utc.getD 0
    if min_created_utc.isSome && created != 0 && created < min_created_utc.getD 0 then
      []
    else
      let skipBot :=
        match bot_username_norm with
        | none => false
        | some b =>
          let mod_name := a.mod.getD ""
          mod_name != "" && strToLower mod_name == b
      if skipBot then fetchModlogLoop bot_username_norm min_created_utc rest
      else
        match a.target_fullname with
        | none => fetchModlogLoop bot_username_norm min_created_utc rest
        | some t =>
          if t = "" then fetchModlogLoop bot_username_norm min_created_utc rest
          else if !(strStartsWith t "t1_" || strStartsWith t "t3_") then
            fetchModlogLoop bot_username_norm min_created_utc rest
          else
            (t, created, formatModlogEntry a) ::
              fetchModlogLoop bot_username_norm min_created_utc rest

/-- reddit_client.py `fetch_recent_modlog_entries`: the Reddit listing yields
at most `limit` actions (modelled by `take`); `bot_username` is normalized to
lower case when non-empty. -/
def fetch_recent_modlog_entries (bot_username : Option String) (limit : Int)
    (min_created_utc : Option Int) (actions : List RawAction) :
    List (String × Int × String) :=
  let bot_username_norm : Option String :=
    match bot_username with
    | some s => if s = "" then none else some (strToLower s)
    | none => none
  fetchModlogLoop bot_username_norm min_created_utc (actions.take limit.toNat)

/-- Per-tenant runtime identity (bot.py `SetupRuntime`) plus the global
`demo_mode` flag read by the reconciliation functions. -/
structure RunCfg where
  setup_id : String
  guild_id : Int
  demo_mode : Bool
  settings : ResolvedSettings
deriving DecidableEq, Repr

/-- The entries a modlog refresh cycle fetches (and, when non-empty, merges):
empty when the cycle is skipped by one of its guards. -/
def cycleEntries (cfg : RunCfg) (bot_username : Option String) (db : DB)
    (actions : List RawAction) : List (String × Int × String) :=
  if cfg.demo_mode then []
  else if cfg.settings.modlog_fetch_limit ≤ 0 then []
  else if cfg.settings.reddit_subreddit = none ∨ cfg.settings.reddit_subreddit = some "" then []
  else
    fetch_recent_modlog_entries bot_username cfg.settings.modlog_fetch_limit
      (get_modlog_state db cfg.setup_id) actions

/-- bot.py `RedditModBot._refresh_modlog_cache`. After the merge, Python
computes `max(entry[1] for entry in entries if entry[1])`, which raises
`ValueError` when no entry has a non-zero timestamp; that exception (and the
`AttributeError` from the missing `modlog_max_age_days` setting on the prune
step that follows) is swallowed by the surrounding handler, so the cycle ends
after the watermark update (or after the save, when the batch has no non-zero
timestamp). -/
def refresh_modlog_cache (cfg : RunCfg) (bot_username : Option String)
    (actions : List RawAction) (db : DB) : DB :=
  if cfg.demo_mode then db
  else if cfg.settings.modlog_fetch_limit ≤ 0 then db
  else if cfg.settings.reddit_subreddit = none ∨ cfg.settings.reddit_subreddit = some "" then db
  else
    let entries := cycleEntries cfg bot_username db actions
    if entries.isEmpty then db
    else
      let db1 := save_modlog_entries db cfg.setup_id entries
      let nonzero := entries.filterMap (fun e => if e.snd.fst ≠ 0 then some e.snd.fst else none)
      match nonzero.max? with
      | none => db1
      | some newest =>
        if newest ≠ 0 then update_modlog_state db1 cfg.setup_id newest else db1

/-- Result of a Discord fetch/edit call in the oracles: success, a 404, or a
Forbidden/HTTP failure. -/
inductive MsgFetch where
  | found
  | notFound
  | failed
deriving DecidableEq, Repr

/-- Failure modes of reddit_client.py `refresh_state`: `invalidId` models the
`ValueError` for a malformed/unknown fullname, `transient` every other
exception. -/
inductive RefreshErr where
  | invalidId
  | transient
deriving DecidableEq, Repr

/-- The dictionary returned by `refresh_state`: `none` in a field models an
absent value or one that fails the `isinstance` check in the consumer. -/
structure RefreshState where
  locked : Option Bool
  reports_ignored : Option Bool
  removed : Option Bool
  approved : Option Bool
  num_reports : Option Int
deriving DecidableEq, Repr

/-- One call to the Discord collaborator made by `_edit_alert_message`. -/
inductive ChanCall where
  | resolveChannel (channel_id : Int)
  | fetchMessage (message_id : Int)
  | editMessage (message_id : Int)
deriving DecidableEq, Repr

/-- The external collaborators of one poll cycle, as oracles. -/
structure PollEnv where
  /-- The resolved mod channel id (`_resolve_mod_channel`), if any. -/
  modChannel : Option Int
  /-- The raw moderation-log listing Reddit would return this cycle. -/
  modlogActions : List RawAction
  /-- The bot account name used to filter its own modlog actions. -/
  botUsername : Option String
  /-- `fetch_reports()`: the fetched items, or a transient failure. -/
  fetchReports : Except Unit (List ReportedItem)
  /-- `channel.send(...)`: the new message id, or `none` on
  Forbidden/HTTPException. -/
  send : ReportedItem → Option Int
  /-- `refresh_state(fullname)` for the drift-refresh path. -/
  refresh : String → Except RefreshErr RefreshState
  /-- Whether `channel_id` resolves to a usable text channel/thread. -/
  chanResolve : Int → Bool
  /-- `channel.fetch_message(message_id)`. -/
  fetchMessage : Int → MsgFetch
  /-- `message.edit(...)`: `found` models success. -/
  editMessage : Int → MsgFetch

/-- The `new_report` field-by-field diff block of bot.py
`_edit_alert_message` (fields in source order); returns whether anything
changed together with the updated payload. -/
def applyNewReport (p : ReportViewPayload) (r : ReportedItem) :
    Bool × ReportViewPayload :=
  let c := false
  let (c, p) := if p.title ≠ r.title then (true, { p with title := r.title }) else (c, p)
  let (c, p) := if p.snippet ≠ r.snippet then (true, { p with snippet := r.snippet }) else (c, p)
  let (c, p) := if p.permalink ≠ r.permalink then (true, { p with permalink := r.permalink }) else (c, p)
  let (c, p) := if p.author ≠ r.author then (true, { p with author := r.author }) else (c, p)
  let (c, p) := if p.subreddit ≠ r.subreddit then (true, { p with subreddit := r.subreddit }) else (c, p)
  let (c, p) := if p.link_url ≠ r.link_url then (true, { p with link_url := r.link_url }) else (c, p)
  let (c, p) := if p.media_url ≠ r.media_url then (true, { p with media_url := r.media_url }) else (c, p)
  let (c, p) := if p.thumbnail_url ≠ r.thumbnail_url then (true, { p with thumbnail_url := r.thumbnail_url }) else (c, p)
  let (c, p) := if p.num_reports ≠ r.num_reports then (true, { p with num_reports := r.num_reports }) else (c, p)
  let (c, p) := if p.locked ≠ r.locked then (true, { p with locked := r.locked }) else (c, p)
  let (c, p) := if p.reports_ignored ≠ r.reports_ignored then (true, { p with reports_ignored := r.reports_ignored }) else (c, p)
  let (c, p) := if p.removed ≠ r.removed then (true, { p with removed := r.removed }) else (c, p)
  let (c, p) := if p.approved ≠ r.approved then (true, { p with approved := r.approved }) else (c, p)
  let (c, p) := if p.user_reports ≠ r.user_reports then (true, { p with user_reports := r.user_reports }) else (c, p)
  let (c, p) := if p.mod_reports ≠ r.mod_reports then (true, { p with mod_reports := r.mod_reports }) else (c, p)
  (c, p)

/-- The `refreshed_state` whitelist-merge block of bot.py
`_edit_alert_message`: only lock/ignore/remove/approve/report-count, each
guarded by an `isinstance` check. Note the source compares `num_reports`
against `int(raw)` but assigns `max(0, int(raw))`. -/
def applyRefreshed (c0 : Bool) (p0 : ReportViewPayload) (st : RefreshState) :
    Bool × ReportViewPayload :=
  let (c, p) :=
    match st.locked with
    | some b => if p0.locked ≠ b then (true, { p0 with locked := b }) else (c0, p0)
    | none => (c0, p0)
  let (c, p) :=
    match st.reports_ignored with
    | some b => if p.reports_ignored ≠ b then (true, { p with reports_ignored := b }) else (c, p)
    | none => (c, p)
  let (c, p) :=
    match st.removed with
    | some b => if p.removed ≠ b then (true, { p with removed := b }) else (c, p)
    | none => (c, p)
  let (c, p) :=
    match st.approved with
    | some b => if p.approved ≠ b then (true, { p with approved := b }) else (c, p)
    | none => (c, p)
  let (c, p) :=
    match st.num_reports with
    | some n => if p.num_reports ≠ n then (true, { p with num_reports := max 0 n }) else (c, p)
    | none => (c, p)
  (c, p)

/-- The channel-interaction tail of bot.py `_edit_alert_message` (from the
channel resolution on), reached only when something changed: resolve the
channel, fetch the message, edit it, and persist the refreshed view; a 404 on
any step clears the binding and deletes the view. Returns the updated
database and the Discord calls made. -/
def editAlertSend (env : PollEnv) (cfg : RunCfg) (db : DB) (fullname : String)
    (channel_id message_id : Int) (p3 : ReportViewPayload) (now : Int) :
    DB × List ChanCall :=
  if env.chanResolve channel_id then
    match env.fetchMessage message_id with
    | .notFound =>
      (delete_view (clear_discord_message db fullname cfg.setup_id) message_id,
        [.resolveChannel channel_id, .fetchMessage message_id])
    | .failed =>
      (db, [.resolveChannel channel_id, .fetchMessage message_id])
    | .found =>
      match env.editMessage message_id with
      | .notFound =>
        (delete_view (clear_discord_message db fullname cfg.setup_id) message_id,
          [.resolveChannel channel_id, .fetchMessage message_id, .editMessage message_id])
      | .failed =>
        (db, [.resolveChannel channel_id, .fetchMessage message_id, .editMessage message_id])
      | .found =>
        let db' := save_view db
          ⟨message_id, channel_id, cfg.guild_id, p3.to_dict, now⟩
        (db', [.resolveChannel channel_id, .fetchMessage message_id, .editMessage message_id])
  else
    (delete_view (clear_discord_message db fullname cfg.setup_id) message_id,
      [.resolveChannel channel_id])

/-- bot.py `RedditModBot._edit_alert_message`. Returns the updated database
and the Discord calls made, or `.error` carrying the database state when
`from_dict` raises (the only exception point, reached before any write). The
modlog history merge block is a no-op at runtime: reading the missing
`modlog_max_age_days` setting raises `AttributeError`, swallowed by that
block's handler (see `ResolvedSettings`). -/
def editAlertMessage (env : PollEnv) (cfg : RunCfg) (db : DB)
    (fullname : String) (channel_id message_id : Int)
    (new_report : Option ReportedItem) (refreshed_state : Option RefreshState)
    (now : Int) : Except DB (DB × List ChanCall) :=
  let p0? : Except DB (Option ReportViewPayload) :=
    match get_view db message_id with
    | none =>
      .ok (match new_report with
        | none => none
        | some r => some (ReportViewPayload.from_reported_item r (some cfg.setup_id)))
    | some vr =>
      match ReportViewPayload.from_dict vr.payload_json with
      | .error _ => .error db
      | .ok p => .ok (some p)
  match p0? with
  | .error d => .error d
  | .ok none => .ok (db, [])
  | .ok (some p0) =>
    let p1 :=
      if p0.setup_id = none ∨ p0.setup_id = some "" then
        { p0 with setup_id := some cfg.setup_id }
      else p0
    let (chg1, p2) :=
      match new_report with
      | none => (false, p1)
      | some r => applyNewReport p1 r
    let (chg2, p3) :=
      match refreshed_state with
      | none => (chg1, p2)
      | some st => applyRefreshed chg1 p2 st
    if !chg2 then .ok (db, [])
    else .ok (editAlertSend env cfg db fullname channel_id message_id p3 now)

/-- bot.py `RedditModBot._update_existing_alert`: look up the binding, return
early when handled or unbound, otherwise edit in place. -/
def updateExistingAlert (env : PollEnv) (cfg : RunCfg) (db : DB)
    (report : ReportedItem) (now : Int) : Except DB (DB × List ChanCall) :=
  match get_alert_message db report.fullname cfg.setup_id with
  | (channel_id?, message_id?, handled) =>
    if handled then .ok (db, [])
    else
      match channel_id?, message_id? with
      | some c, some m =>
        editAlertMessage env cfg db report.fullname c m (some report) none now
      | _, _ => .ok (db, [])

/-- The body of the per-item loop in bot.py `RedditModBot._poll_once` for one
fetched report: filters, dedup decision, then create-or-update. The modlog
history augmentation of a fresh payload is a no-op at runtime (missing
`modlog_max_age_days` setting, see `ResolvedSettings`). Returns the updated
database and whether this item was posted; `.error` carries the database when
an exception escapes the update path and aborts the cycle. -/
def pollStep (env : PollEnv) (cfg : RunCfg) (chanId : Int) (db : DB)
    (r : ReportedItem) (now : Int) : Except DB (DB × Bool) :=
  let payload := ReportViewPayload.from_reported_item r (some cfg.setup_id)
  if !passes_age payload cfg.settings now then .ok (db, false)
  else if !passes_threshold payload cfg.settings then .ok (db, false)
  else
    match should_alert db r cfg.setup_id cfg.guild_id now with
    | (sa, db1) =>
      if !sa then
        match updateExistingAlert env cfg db1 r now with
        | .error dbe => .error dbe
        | .ok (db2, _) => .ok (db2, false)
      else
        match env.send r with
        | none => .ok (db1, false)
        | some mid =>
          let db2 := set_discord_message db1 r.fullname cfg.setup_id chanId mid
          let db3 := save_view db2 ⟨mid, chanId, cfg.guild_id, payload.to_dict, now⟩
          .ok (db3, true)

/-- The per-item loop of `_poll_once` over the fetched batch, accumulating the
posted count and the `seen_fullnames` set (modelled as a list). The `Bool`
result flags an abort (an exception escaping the loop). -/
def pollItems (env : PollEnv) (cfg : RunCfg) (chanId : Int) (now : Int) :
    List ReportedItem → DB → Int → List String → DB × Int × List String × Bool
  | [], db, posted, seen => (db, posted, seen, false)
  | r :: rest, db, posted, seen =>
    let seen' := seen ++ [r.fullname]
    match pollStep env cfg chanId db r now with
    | .error dbe => (dbe, posted, seen', true)
    | .ok (db', postedHere) =>
      pollItems env cfg chanId now rest db' (if postedHere then posted + 1 else posted) seen'

/-- bot.py `RedditModBot._refresh_unhandled_alerts`: for each listed
unhandled, bound alert not seen in this cycle's fetch, refresh its external
state and edit when changed; a `ValueError` (invalid fullname) marks the row
handled, any other failure — including an exception from the edit — skips the
row and continues. -/
def refreshUnhandledAlerts (env : PollEnv) (cfg : RunCfg) (db : DB)
    (seen : List String) (now : Int) : DB :=
  let refs := list_unhandled_alerts db cfg.setup_id 50
  refs.foldl
    (fun db ref =>
      match ref with
      | (fullname, channel_id, message_id) =>
        if seen.contains fullname then db
        else
          match env.refresh fullname with
          | .error .invalidId => mark_handled db fullname cfg.setup_id
          | .error .transient => db
          | .ok st =>
            match editAlertMessage env cfg db fullname channel_id message_id none (some st) now with
            | .error dbe => dbe
            | .ok (db', _) => db')
    db

/-- bot.py `RedditModBot._poll_once`: resolve the mod channel, refresh the
modlog cache, fetch reports, run the per-item loop, then drift-refresh the
unhandled alerts that were not in this fetch. Returns the final database, the
posted count, and whether an exception aborted the cycle (in which case the
drift refresh does not run and the count is not reported). -/
def pollOnce (env : PollEnv) (cfg : RunCfg) (db : DB) (now : Int) :
    DB × Int × Bool :=
  match env.modChannel with
  | none => (db, 0, false)
  | some chanId =>
    let db := refresh_modlog_cache cfg env.botUsername env.modlogActions db
    match env.fetchReports with
    | .error _ => (db, 0, false)
    | .ok reports =>
      match pollItems env cfg chanId now reports db 0 [] with
      | (db, posted, seen, aborted) =>
        if aborted then (db, posted, true)
        else (refreshUnhandledAlerts env cfg db seen now, posted, false)

/-! Helper lemmas about the table primitives. -/

theorem find?_updateRows {α : Type} (p : α → Bool) (f : α → α) (l : List α)
    (hf : ∀ r, p r = true → p (f r) = true) :
    (updateRows p f l).find? p = (l.find? p).map f := by
  induction l with
  | nil => rfl
  | cons a l ih =>
    simp only [updateRows, List.map_cons]
    by_cases ha : p a = true
    · rw [if_pos ha, List.find?_cons_of_pos _ (hf a ha), List.find?_cons_of_pos _ ha]
      rfl
    · rw [if_neg ha, List.find?_cons_of_neg _ ha, List.find?_cons_of_neg _ ha]
      exact ih

theorem find?_updateRows_disjoint {α : Type} (p q : α → Bool) (f : α → α) (l : List α)
    (hq : ∀ r, q (f r) = q r) (hdisj : ∀ r, q r = true → p r = false) :
    (updateRows p f l).find? q = l.find? q := by
  induction l with
  | nil => rfl
  | cons a l ih =>
    simp only [updateRows, List.map_cons]
    by_cases ha : q a = true
    · have hpa : ¬ p a = true := by simp [hdisj a ha]
      rw [if_neg hpa, List.find?_cons_of_pos _ ha, List.find?_cons_of_pos _ ha]
    · by_cases hpa : p a = true
      · have hfa : ¬ q (f a) = true := by rw [hq]; exact ha
        rw [if_pos hpa, List.find?_cons_of_neg _ hfa, List.find?_cons_of_neg _ ha]
        exact ih
      · rw [if_neg hpa, List.find?_cons_of_neg _ ha, List.find?_cons_of_neg _ ha]
        exact ih

theorem insertDescBy_perm {α : Type} (key : α → Int) (x : α) (l : List α) :
    (insertDescBy key x l).Perm (x :: l) := by
  induction l with
  | nil => exact List.Perm.refl _
  | cons y ys ih =>
    by_cases h : key y ≤ key x
    · simp [insertDescBy, h]
    · simp only [insertDescBy, if_neg h]
      exact (ih.cons y).trans (List.Perm.swap x y ys)

theorem sortDescBy_perm {α : Type} (key : α → Int) (l : List α) :
    (sortDescBy key l).Perm l := by
  induction l with
  | nil => exact List.Perm.refl _
  | cons x xs ih =>
    exact (insertDescBy_perm key x (sortDescBy key xs)).trans (ih.cons x)

theorem mem_sortDescBy {α : Type} (key : α → Int) (l : List α) (a : α) :
    a ∈ sortDescBy key l ↔ a ∈ l :=
  (sortDescBy_perm key l).mem_iff

/-! Concrete sample values used by the witness theorems. -/

/-- A concrete reported item for witnesses. -/
def sampleItem : ReportedItem :=
  { fullname := "t3_abc"
    kind := .submission
    subreddit := "sub"
    author := "alice"
    permalink := "https://example.com/p"
    link_url := none
    media_url := none
    thumbnail_url := none
    title := "Title"
    snippet := "Snip"
    num_reports := 3
    created_utc := 1000
    num_comments := some 2
    locked := false
    reports_ignored := false
    removed := false
    approved := false
    user_reports := ["Spam x1"]
    mod_reports := [] }

/-- Concrete settings for witnesses: thresholds 3 (posts) and 2 (comments),
age cutoff 24 hours, modlog fetch limit 100 on subreddit `sub`. -/
def sampleSettings : ResolvedSettings :=
  { post_report_threshold := 3
    comment_report_threshold := 2
    max_item_age_hours := 24
    modlog_fetch_limit := 100
    reddit_subreddit := some "sub" }

/-- C6: the threshold filter passes an item whose report count equals the
configured threshold for its kind and drops one whose count is one less, the
submission and comment thresholds applying independently by kind. -/
theorem C6_threshold_boundary (settings : ResolvedSettings) (p : ReportViewPayload) :
    (p.kind = .comment →
      (passes_threshold p settings = true ↔
        settings.comment_report_threshold ≤ p.num_reports)) ∧
    (p.kind = .submission →
      (passes_threshold p settings = true ↔
        settings.post_report_threshold ≤ p.num_reports)) ∧
    (p.kind = .comment → p.num_reports = settings.comment_report_threshold →
      passes_threshold p settings = true) ∧
    (p.kind = .comment → p.num_reports = settings.comment_report_threshold - 1 →
      passes_threshold p settings = false) ∧
    (p.kind = .submission → p.num_reports = settings.post_report_threshold →
      passes_threshold p settings = true) ∧
    (p.kind = .submission → p.num_reports = settings.post_report_threshold - 1 →
      passes_threshold p settings = false) := by
  cases hk : p.kind <;>
    simp [passes_threshold, hk] <;>
    omega

/-- Witness for C6 at a concrete input: a submission with exactly 3 reports
passes the post threshold 3. -/
theorem C6_threshold_boundary_witness :
    passes_threshold (ReportViewPayload.from_reported_item sampleItem none)
      sampleSettings = true :=
  (C6_threshold_boundary sampleSettings
    (ReportViewPayload.from_reported_item sampleItem none)).2.2.2.2.1
    (by decide) (by decide)

/-- C7 as stated is false: with `max_item_age_hours = 1`, an item whose
`created_utc` is `0` and whose age is two hours still passes the age filter
(the source disables the check for non-positive creation times). -/
theorem C7_counterexample :
    ¬ (∀ (settings : ResolvedSettings) (p : ReportViewPayload) (now : Int),
        0 < settings.max_item_age_hours →
        settings.max_item_age_hours * 3600 < now - p.created_utc →
        passes_age p settings now = false) := by
  intro h
  have hfalse := h
    { post_report_threshold := 1
      comment_report_threshold := 1
      max_item_age_hours := 1
      modlog_fetch_limit := 0
      reddit_subreddit := none }
    { ReportViewPayload.from_reported_item sampleItem none with created_utc := 0 }
    7200 (by decide) (by decide)
  have htrue : passes_age
      { ReportViewPayload.from_reported_item sampleItem none with created_utc := 0 }
      { post_report_threshold := 1
        comment_report_threshold := 1
        max_item_age_hours := 1
        modlog_fetch_limit := 0
        reddit_subreddit := none }
      7200 = true := by decide
  rw [htrue] at hfalse
  cases hfalse

/-- C7 amended: for items with a positive creation timestamp, an age exactly
equal to `max_item_age_hours` is kept and anything strictly older is dropped;
`max_item_age_hours = 0` disables the filter, and so does a non-positive
`created_utc` (unknown creation time). -/
theorem C7_age_boundary (settings : ResolvedSettings) (p : ReportViewPayload)
    (now : Int) :
    (0 < settings.max_item_age_hours → 0 < p.created_utc →
      (now - p.created_utc = settings.max_item_age_hours * 3600 →
        passes_age p settings now = true) ∧
      (settings.max_item_age_hours * 3600 < now - p.created_utc →
        passes_age p settings now = false)) ∧
    (settings.max_item_age_hours = 0 → passes_age p settings now = true) ∧
    (p.created_utc ≤ 0 → passes_age p settings now = true) := by
  simp only [passes_age]
  refine ⟨fun hmax hc => ?_, fun h0 => ?_, fun hc => ?_⟩
  · rw [if_neg (by omega), if_neg (by omega)]
    constructor
    · intro h
      simp only [decide_eq_true_eq]
      omega
    · intro h
      simp only [decide_eq_false_iff_not]
      omega
  · rw [if_pos (by omega)]
  · by_cases hmax : settings.max_item_age_hours ≤ 0
    · rw [if_pos hmax]
    · rw [if_neg hmax, if_pos hc]

/-- Witness for C7 at concrete inputs: with a 24 hour cutoff, an item created
at time 1000 is kept at age exactly 24 hours and dropped one second past it,
while cutoff 0 keeps it at any age. -/
theorem C7_age_boundary_witness :
    passes_age (ReportViewPayload.from_reported_item sampleItem none)
      sampleSettings (1000 + 24 * 3600) = true ∧
    passes_age (ReportViewPayload.from_reported_item sampleItem none)
      sampleSettings (1000 + 24 * 3600 + 1) = false ∧
    passes_age (ReportViewPayload.from_reported_item sampleItem none)
      { sampleSettings with max_item_age_hours := 0 } 999999999 = true := by
  refine ⟨?_, ?_, ?_⟩
  · exact ((C7_age_boundary sampleSettings _ _).1 (by decide) (by decide)).1 (by decide)
  · exact ((C7_age_boundary sampleSettings _ _).1 (by decide) (by decide)).2 (by decide)
  · exact (C7_age_boundary _ _ _).2.1 (by decide)

theorem find?_append_none {α : Type} (p : α → Bool) (l1 l2 : List α)
    (h : l1.find? p = none) : (l1 ++ l2).find? p = l2.find? p := by
  induction l1 with
  | nil => rfl
  | cons a l ih =>
    have h' := List.find?_eq_none.mp h
    rw [List.cons_append, List.find?_cons_of_neg _ (h' a (by simp))]
    exact ih (List.find?_eq_none.mpr fun x hx => h' x (by simp [hx]))

/-- C1 as stated is false on the code: after a first sighting creates a
DedupRecord (with no message binding yet), a second call for the same
(tenant, item) finds the existing record and still returns true. -/
theorem C1_counterexample :
    ((should_alert DB.empty sampleItem "s1" 5 10).fst = true) ∧
    (findRow (should_alert DB.empty sampleItem "s1" 5 10).snd "s1"
      sampleItem.fullname).isSome = true ∧
    ((should_alert (should_alert DB.empty sampleItem "s1" 5 10).snd
      sampleItem "s1" 5 20).fst = true) := by
  decide

/-- C1 amended: `should_alert` creates a record and returns true on a first
sighting; on any later sighting it refreshes `last_seen_at` and
`report_count` and returns true exactly when the record has no bound
`discord_message_id` — so it returns false (at most one alert) only while a
message binding exists, i.e. until the binding is cleared. -/
theorem C1_should_alert_behaviour (db : DB) (item : ReportedItem)
    (setup_id : String) (guild_id now : Int) :
    (findRow db setup_id item.fullname = none →
      (should_alert db item setup_id guild_id now).fst = true ∧
      findRow (should_alert db item setup_id guild_id now).snd setup_id item.fullname =
        some { setup_id := setup_id, guild_id := guild_id, fullname := item.fullname,
               thing_kind := kindStr item.kind, subreddit := item.subreddit,
               first_reported_at := now, last_seen_at := now,
               report_count := item.num_reports, handled := false,
               discord_channel_id := none, discord_message_id := none }) ∧
    (∀ row, findRow db setup_id item.fullname = some row →
      (should_alert db item setup_id guild_id now).fst = row.discord_message_id.isNone ∧
      findRow (should_alert db item setup_id guild_id now).snd setup_id item.fullname =
        some { row with last_seen_at := now, report_count := item.num_reports }) := by
  constructor
  · intro h
    unfold should_alert
    rw [h]
    dsimp only
    refine ⟨rfl, ?_⟩
    unfold findRow
    dsimp only
    rw [find?_append_none _ _ _ h]
    simp
  · intro row h
    unfold should_alert
    rw [h]
    dsimp only
    have hupd : (updateRows
        (fun r => r.setup_id == setup_id && r.fullname == item.fullname)
        (fun r => { r with last_seen_at := now, report_count := item.num_reports })
        db.reported_items).find?
        (fun r => r.setup_id == setup_id && r.fullname == item.fullname) =
        some { row with last_seen_at := now, report_count := item.num_reports } := by
      rw [find?_updateRows _ _ _ (fun r hr => by simpa using hr)]
      rw [show db.reported_items.find?
        (fun r => r.setup_id == setup_id && r.fullname == item.fullname) = some row from h]
      rfl
    rcases hmsg : row.discord_message_id with _ | m
    · simp_all [findRow]
    · cases hh : row.handled <;> simp_all [findRow]

/-- Witness for C1 at a concrete input: a first sighting on an empty store
returns true and creates the expected record. -/
theorem C1_should_alert_behaviour_witness :
    (should_alert DB.empty sampleItem "s1" 5 10).fst = true ∧
    findRow (should_alert DB.empty sampleItem "s1" 5 10).snd "s1" sampleItem.fullname =
      some { setup_id := "s1", guild_id := 5, fullname := sampleItem.fullname,
             thing_kind := kindStr sampleItem.kind, subreddit := sampleItem.subreddit,
             first_reported_at := 10, last_seen_at := 10,
             report_count := sampleItem.num_reports, handled := false,
             discord_channel_id := none, discord_message_id := none } :=
  (C1_should_alert_behaviour DB.empty sampleItem "s1" 5 10).1 rfl

/-! Lookup computation lemmas for `to_dict` dictionaries. -/
@[simp] theorem dget_view_version (p : ReportViewPayload) (dflt : JValue) :
    dictGet p.to_dict "view_version" dflt = JValue.jint p.view_version := rfl
@[simp] theorem dget_fullname (p : ReportViewPayload) (dflt : JValue) :
    dictGet p.to_dict "fullname" dflt = JValue.jstr p.fullname := rfl
@[simp] theorem dget_kind (p : ReportViewPayload) (dflt : JValue) :
    dictGet p.to_dict "kind" dflt = JValue.jstr (kindStr p.kind) := rfl
@[simp] theorem dget_subreddit (p : ReportViewPayload) (dflt : JValue) :
    dictGet p.to_dict "subreddit" dflt = JValue.jstr p.subreddit := rfl
@[simp] theorem dget_author (p : ReportViewPayload) (dflt : JValue) :
    dictGet p.to_dict "author" dflt = JValue.jstr p.author := rfl
@[simp] theorem dget_permalink (p : ReportViewPayload) (dflt : JValue) :
    dictGet p.to_dict "permalink" dflt = JValue.jstr p.permalink := rfl
@[simp] theorem dget_link_url (p : ReportViewPayload) (dflt : JValue) :
    dictGet p.to_dict "link_url" dflt = optStr p.link_url := rfl
@[simp] theorem dget_media_url (p : ReportViewPayload) (dflt : JValue) :
    dictGet p.to_dict "media_url" dflt = optStr p.media_url := rfl
@[simp] theorem dget_thumbnail_url (p : ReportViewPayload) (dflt : JValue) :
    dictGet p.to_dict "thumbnail_url" dflt = optStr p.thumbnail_url := rfl
@[simp] theorem dget_title (p : ReportViewPayload) (dflt : JValue) :
    dictGet p.to_dict "title" dflt = JValue.jstr p.title := rfl
@[simp] theorem dget_snippet (p : ReportViewPayload) (dflt : JValue) :
    dictGet p.to_dict "snippet" dflt = JValue.jstr p.snippet := rfl
@[simp] theorem dget_num_reports (p : ReportViewPayload) (dflt : JValue) :
    dictGet p.to_dict "num_reports" dflt = JValue.jint p.num_reports := rfl
@[simp] theorem dget_created_utc (p : ReportViewPayload) (dflt : JValue) :
    dictGet p.to_dict "created_utc" dflt = JValue.jint p.created_utc := rfl
@[simp] theorem dget_num_comments (p : ReportViewPayload) (dflt : JValue) :
    dictGet p.to_dict "num_comments" dflt = optInt p.num_comments := rfl
@[simp] theorem dget_locked (p : ReportViewPayload) (dflt : JValue) :
    dictGet p.to_dict "locked" dflt = JValue.jbool p.locked := rfl
@[simp] theorem dget_reports_ignored (p : ReportViewPayload) (dflt : JValue) :
    dictGet p.to_dict "reports_ignored" dflt = JValue.jbool p.reports_ignored := rfl
@[simp] theorem dget_removed (p : ReportViewPayload) (dflt : JValue) :
    dictGet p.to_dict "removed" dflt = JValue.jbool p.removed := rfl
@[simp] theorem dget_approved (p : ReportViewPayload) (dflt : JValue) :
    dictGet p.to_dict "approved" dflt = JValue.jbool p.approved := rfl
@[simp] theorem dget_user_reports (p : ReportViewPayload) (dflt : JValue) :
    dictGet p.to_dict "user_reports" dflt = JValue.jlist (p.user_reports.map JValue.jstr) := rfl
@[simp] theorem dget_mod_reports (p : ReportViewPayload) (dflt : JValue) :
    dictGet p.to_dict "mod_reports" dflt = JValue.jlist (p.mod_reports.map JValue.jstr) := rfl
@[simp] theorem dget_handled (p : ReportViewPayload) (dflt : JValue) :
    dictGet p.to_dict "handled" dflt = JValue.jbool p.handled := rfl
@[simp] theorem dget_action_log (p : ReportViewPayload) (dflt : JValue) :
    dictGet p.to_dict "action_log" dflt = JValue.jlist (p.action_log.map JValue.jstr) := rfl
@[simp] theorem dget_setup_id (p : ReportViewPayload) (dflt : JValue) :
    dictGet p.to_dict "setup_id" dflt = optStr p.setup_id := rfl

@[simp] theorem map_pyStr_jstr (l : List String) :
    (l.map JValue.jstr).map pyStr = l := by
  induction l with
  | nil => rfl
  | cons a l ih => simp [pyStr, ih]

@[simp] theorem map_pyStr_comp_jstr (l : List String) :
    l.map (pyStr ∘ JValue.jstr) = l := by
  induction l with
  | nil => rfl
  | cons a l ih => simp [pyStr, ih]

@[simp] theorem pyStr_jstr (s : String) : pyStr (.jstr s) = s := rfl

@[simp] theorem pyInt_jint (n : Int) : pyInt (.jint n) = .ok n := rfl

@[simp] theorem pyFloat_jint (n : Int) : pyFloat (.jint n) = .ok n := rfl

@[simp] theorem pyBool_jbool (b : Bool) : pyBool (.jbool b) = b := rfl

@[simp] theorem except_ok_bind {e a b : Type} (x : a) (f : a → Except e b) :
    (Except.ok x >>= f : Except e b) = f x := rfl

@[simp] theorem except_pure {e a : Type} (x : a) :
    (pure x : Except e a) = Except.ok x := rfl

/-- The condition under which an optional URL field survives `from_dict`
unchanged: absent, or not whitespace-only. -/
def urlFieldOk : Option String → Prop
  | none => True
  | some s => pyStripEmpty s = false

/-- C8 as stated is false: a payload whose `link_url` is the empty string
(`Some ""`) serializes via `to_dict` but deserializes with `link_url = None`,
a payload that is not field-for-field equal to the original. -/
theorem C8_counterexample :
    ReportViewPayload.from_dict
      (ReportViewPayload.to_dict
        { ReportViewPayload.from_reported_item sampleItem (some "s1") with
            link_url := some "" }) =
      Except.ok
        { ReportViewPayload.from_reported_item sampleItem (some "s1") with
            link_url := none } ∧
    ({ ReportViewPayload.from_reported_item sampleItem (some "s1") with
        link_url := none } : ReportViewPayload) ≠
      { ReportViewPayload.from_reported_item sampleItem (some "s1") with
          link_url := some "" } := by
  exact ⟨rfl, by decide⟩

/-- C8 amended: `from_dict (to_dict p) = p` for every payload whose optional
URL fields are absent or not whitespace-only (the only fields `from_dict`
normalizes; empty or whitespace-only URL strings collapse to `None`). -/
theorem C8_payload_roundtrip (p : ReportViewPayload)
    (h1 : urlFieldOk p.link_url) (h2 : urlFieldOk p.media_url)
    (h3 : urlFieldOk p.thumbnail_url) :
    ReportViewPayload.from_dict p.to_dict = .ok p := by
  obtain ⟨fn, kd, sr, au, pl, lu, mu, tu, ti, sn, nr, cu, nc, lk, ri, rm, ap, ur, mr, hd, al, vv, si⟩ := p
  cases kd <;> cases nc <;> cases lu <;> cases mu <;> cases tu <;> cases si <;>
    simp_all [ReportViewPayload.from_dict, urlFieldOk, optStr, optInt, kindStr]

/-- Witness for C8 at a concrete input: the sample payload (with absent URL
fields) round-trips exactly. -/
theorem C8_payload_roundtrip_witness :
    ReportViewPayload.from_dict
      (ReportViewPayload.to_dict
        (ReportViewPayload.from_reported_item sampleItem (some "s1"))) =
    Except.ok (ReportViewPayload.from_reported_item sampleItem (some "s1")) :=
  C8_payload_roundtrip (ReportViewPayload.from_reported_item sampleItem (some "s1"))
    trivial trivial trivial

/-- Well-formedness of `reported_items`: the SQLite primary key
(`setup_id`, `fullname`) is unique. -/
def DB.wfReported (db : DB) : Prop :=
  (db.reported_items.map (fun r => (r.setup_id, r.fullname))).Nodup

theorem findRow_eq_of_wf (db : DB) (hwf : DB.wfReported db) (r : ReportedRow)
    (hr : r ∈ db.reported_items) (s f : String) (hs : r.setup_id = s)
    (hf : r.fullname = f) : findRow db s f = some r := by
  cases hfind : findRow db s f with
  | none =>
    exfalso
    have hnone := List.find?_eq_none.mp hfind r hr
    simp [hs, hf] at hnone
  | some x =>
    have hpred := List.find?_some hfind
    have hxmem := List.mem_of_find?_eq_some hfind
    simp only [Bool.and_eq_true, beq_iff_eq] at hpred
    have : x = r := by
      refine List.inj_on_of_nodup_map hwf hxmem hr ?_
      simp [hpred.1, hpred.2, hs, hf]
    rw [this]

/-- C2: once `mark_handled` has run (the row's `handled` flag is set), the
existing-alert update path returns before any Discord call or database write,
`list_unhandled_alerts` never lists that item (so the drift-refresh pass never
touches it), and a fresh `set_discord_message` binding resets `handled` to
false. -/
theorem C2_handled_sticky_until_rebound (env : PollEnv) (cfg : RunCfg) (db : DB)
    (report : ReportedItem) (now : Int) (limit : Nat) (r : ReportedRow)
    (hwf : DB.wfReported db) (hr : r ∈ db.reported_items)
    (hset : r.setup_id = cfg.setup_id) (hname : r.fullname = report.fullname)
    (hhand : r.handled = true) :
    updateExistingAlert env cfg db report now = .ok (db, []) ∧
    (∀ x ∈ list_unhandled_alerts db cfg.setup_id limit, x.fst ≠ r.fullname) ∧
    (∀ c m, findRow (set_discord_message db r.fullname cfg.setup_id c m)
        cfg.setup_id r.fullname =
      some { r with discord_channel_id := some c, discord_message_id := some m,
                    handled := false }) := by
  have hfind : findRow db cfg.setup_id report.fullname = some r :=
    findRow_eq_of_wf db hwf r hr _ _ hset hname
  refine ⟨?_, ?_, ?_⟩
  · unfold updateExistingAlert
    have hga : get_alert_message db report.fullname cfg.setup_id =
        (r.discord_channel_id, r.discord_message_id, r.handled) := by
      unfold get_alert_message
      rw [hfind]
    rw [hga, hhand]
    rfl
  · intro x hx hne
    unfold list_unhandled_alerts at hx
    rw [List.mem_filterMap] at hx
    obtain ⟨row, hrowmem, hrow⟩ := hx
    have hmem2 := List.take_subset _ _ hrowmem
    rw [mem_sortDescBy] at hmem2
    rw [List.mem_filter] at hmem2
    obtain ⟨hrowdb, hpred⟩ := hmem2
    simp only [Bool.and_eq_true, beq_iff_eq] at hpred
    have hfull : row.fullname = x.fst := by
      rcases hc : row.discord_channel_id with _ | c <;>
        rcases hm : row.discord_message_id with _ | m <;>
        rw [hc, hm] at hrow <;> simp at hrow
      exact congrArg Prod.fst hrow.symm ▸ rfl
    have : row = r := by
      refine List.inj_on_of_nodup_map hwf hrowdb hr ?_
      simp [hpred.1.1.1.1, hset, hfull, hne, hname]
    rw [this] at hpred
    rw [hhand] at hpred
    simp at hpred
  · intro c m
    unfold set_discord_message findRow
    show (updateRows _ _ db.reported_items).find? _ = _
    rw [find?_updateRows _ _ _ (fun q hq => by simpa using hq)]
    have : db.reported_items.find?
        (fun q => q.setup_id == cfg.setup_id && q.fullname == r.fullname) = some r := by
      rw [hname]
      exact hfind
    rw [this]
    rfl

/-- Concrete runtime configuration for witnesses. -/
def sampleCfg : RunCfg :=
  { setup_id := "s1", guild_id := 5, demo_mode := false, settings := sampleSettings }

/-- Concrete collaborator oracles for witnesses: everything succeeds. -/
def sampleEnv : PollEnv :=
  { modChannel := some 77
    modlogActions := []
    botUsername := none
    fetchReports := .ok []
    send := fun _ => some 900
    refresh := fun _ => .ok ⟨none, none, none, none, none⟩
    chanResolve := fun _ => true
    fetchMessage := fun _ => .found
    editMessage := fun _ => .found }

/-- A concrete handled, bound row for witnesses. -/
def handledRow : ReportedRow :=
  { setup_id := "s1", guild_id := 5, fullname := "t3_abc",
    thing_kind := "submission", subreddit := "sub", first_reported_at := 1,
    last_seen_at := 2, report_count := 3, handled := true,
    discord_channel_id := some 77, discord_message_id := some 500 }

/-- A database holding only the handled row. -/
def dbHandled : DB :=
  { reported_items := [handledRow], alert_views := [], modlog_entries := [],
    modlog_state := [] }

/-- Witness for C2 at a concrete input: with a handled row, the update path is
a no-op, and a new binding resets `handled`. -/
theorem C2_handled_sticky_until_rebound_witness :
    updateExistingAlert sampleEnv sampleCfg dbHandled sampleItem 10 =
      .ok (dbHandled, []) ∧
    findRow (set_discord_message dbHandled "t3_abc" "s1" 77 901) "s1" "t3_abc" =
      some { handledRow with discord_channel_id := some 77,
                             discord_message_id := some 901,
                             handled := false } := by
  have h := C2_handled_sticky_until_rebound sampleEnv sampleCfg dbHandled
    sampleItem 10 50 handledRow (by unfold DB.wfReported; decide) (by decide)
    rfl rfl rfl
  exact ⟨h.1, h.2.2 77 901⟩

theorem mem_list_unhandled {db : DB} {s : String} {limit : Nat}
    {x : String × Int × Int} (hx : x ∈ list_unhandled_alerts db s limit) :
    ∃ row, row ∈ db.reported_items ∧
      row.setup_id = s ∧ row.handled = false ∧
      row.discord_channel_id = some x.snd.fst ∧
      row.discord_message_id = some x.snd.snd ∧
      row.fullname = x.fst ∧
      ∃ v, v ∈ db.alert_views ∧ v.message_id = x.snd.snd := by
  unfold list_unhandled_alerts at hx
  rw [List.mem_filterMap] at hx
  obtain ⟨row, hrowmem, hrow⟩ := hx
  have hmem2 := List.take_subset _ _ hrowmem
  rw [mem_sortDescBy, List.mem_filter] at hmem2
  obtain ⟨hrowdb, hpred⟩ := hmem2
  simp only [Bool.and_eq_true, beq_iff_eq, Option.isSome_iff_exists,
    List.any_eq_true] at hpred
  obtain ⟨⟨⟨⟨hsetup, hhand⟩, _, _⟩, _⟩, v, hv, hvm⟩ := hpred
  rcases hc : row.discord_channel_id with _ | c <;>
    rcases hm : row.discord_message_id with _ | m <;>
    rw [hc, hm] at hrow <;> simp only [Option.some.injEq] at hrow
  · cases hrow
  · cases hrow
  · cases hrow
  rw [hm] at hvm
  simp only [beq_iff_eq, Option.some.injEq] at hvm
  subst hrow
  refine ⟨row, hrowdb, hsetup, by simpa using hhand, hc, hm, rfl, v, hv, hvm.symm⟩

/-- C10: every alert returned by `list_unhandled_alerts` has a surviving
`alert_views` row for its bound message id (the inner join); an unhandled
record with a live binding whose view row has been deleted or pruned is never
returned. -/
theorem C10_list_unhandled_requires_view (db : DB) (s : String) (limit : Nat) :
    (∀ x ∈ list_unhandled_alerts db s limit,
      ∃ v, v ∈ db.alert_views ∧ v.message_id = x.snd.snd) ∧
    (∀ r : ReportedRow, r ∈ db.reported_items → r.setup_id = s →
      r.handled = false → ∀ m : Int, r.discord_message_id = some m →
      (∀ v, v ∈ db.alert_views → v.message_id ≠ m) →
      ∀ x ∈ list_unhandled_alerts db s limit, x.snd.snd ≠ m) := by
  constructor
  · intro x hx
    obtain ⟨row, _, _, _, _, _, _, v, hv, hvm⟩ := mem_list_unhandled hx
    exact ⟨v, hv, hvm⟩
  · intro r _ _ _ m _ hnoview x hx hxm
    obtain ⟨row, _, _, _, _, _, _, v, hv, hvm⟩ := mem_list_unhandled hx
    exact hnoview v hv (hvm.trans hxm)

/-- The sample row with `handled = false` (live binding). -/
def unhandledRow : ReportedRow := { handledRow with handled := false }

/-- A concrete persisted view for the bound message 500. -/
def sampleView : ViewRow :=
  { message_id := 500, channel_id := 77, guild_id := 5,
    payload_json := (ReportViewPayload.from_reported_item sampleItem (some "s1")).to_dict,
    created_at := 10 }

/-- Database with one unhandled bound row and its surviving view. -/
def dbBound : DB :=
  { reported_items := [unhandledRow], alert_views := [sampleView],
    modlog_entries := [], modlog_state := [] }

/-- Witness for C10 at a concrete input: the listed alert for message 500 has
a surviving view row. -/
theorem C10_list_unhandled_requires_view_witness :
    ∃ v, v ∈ dbBound.alert_views ∧
      v.message_id = (("t3_abc", 77, 500) : String × Int × Int).snd.snd :=
  (C10_list_unhandled_requires_view dbBound "s1" 50).1 ("t3_abc", 77, 500)
    (by decide)

theorem applyNewReport_unchanged (p : ReportViewPayload) (r : ReportedItem)
    (h : p.title = r.title ∧ p.snippet = r.snippet ∧ p.permalink = r.permalink ∧
      p.author = r.author ∧ p.subreddit = r.subreddit ∧ p.link_url = r.link_url ∧
      p.media_url = r.media_url ∧ p.thumbnail_url = r.thumbnail_url ∧
      p.num_reports = r.num_reports ∧ p.locked = r.locked ∧
      p.reports_ignored = r.reports_ignored ∧ p.removed = r.removed ∧
      p.approved = r.approved ∧ p.user_reports = r.user_reports ∧
      p.mod_reports = r.mod_reports) :
    applyNewReport p r = (false, p) := by
  obtain ⟨h1, h2, h3, h4, h5, h6, h7, h8, h9, h10, h11, h12, h13, h14, h15⟩ := h
  unfold applyNewReport
  simp [h1, h2, h3, h4, h5, h6, h7, h8, h9, h10, h11, h12, h13, h14, h15]

/-- C5: when the persisted payload of a bound alert matches the re-fetched
item field for field (author, title, link/media/thumbnail URLs, report lines,
all boolean flags, report count), re-processing issues no edit call and no
other Discord call, and leaves the database untouched. (The refreshed
moderation history can never introduce a change: the history merge block dies
on the missing `modlog_max_age_days` setting and is swallowed, see
`ResolvedSettings`.) -/
theorem C5_unchanged_no_edit (env : PollEnv) (cfg : RunCfg) (db : DB)
    (r : ReportedItem) (channel_id message_id now : Int) (vr : ViewRow)
    (p : ReportViewPayload)
    (hview : get_view db message_id = some vr)
    (hparse : ReportViewPayload.from_dict vr.payload_json = .ok p)
    (heq : p.title = r.title ∧ p.snippet = r.snippet ∧ p.permalink = r.permalink ∧
      p.author = r.author ∧ p.subreddit = r.subreddit ∧ p.link_url = r.link_url ∧
      p.media_url = r.media_url ∧ p.thumbnail_url = r.thumbnail_url ∧
      p.num_reports = r.num_reports ∧ p.locked = r.locked ∧
      p.reports_ignored = r.reports_ignored ∧ p.removed = r.removed ∧
      p.approved = r.approved ∧ p.user_reports = r.user_reports ∧
      p.mod_reports = r.mod_reports) :
    editAlertMessage env cfg db r.fullname channel_id message_id (some r) none now =
      .ok (db, []) := by
  unfold editAlertMessage
  rw [hview]
  dsimp only
  rw [hparse]
  dsimp only
  by_cases hsid : p.setup_id = none ∨ p.setup_id = some ""
  · rw [if_pos hsid]
    rw [applyNewReport_unchanged { p with setup_id := some cfg.setup_id } r
      (by exact heq)]
    rfl
  · rw [if_neg hsid]
    rw [applyNewReport_unchanged p r heq]
    rfl

/-- Witness for C5 at a concrete input: the persisted payload equals the
re-fetched item, so re-processing message 500 makes no Discord call and no
database change. -/
theorem C5_unchanged_no_edit_witness :
    editAlertMessage sampleEnv sampleCfg dbBound "t3_abc" 77 500
      (some sampleItem) none 10 = .ok (dbBound, []) :=
  C5_unchanged_no_edit sampleEnv sampleCfg dbBound sampleItem 77 500 10
    sampleView (ReportViewPayload.from_reported_item sampleItem (some "s1"))
    rfl rfl (by decide)

/-- The database state an `Except`-returning operation leaves behind (the
carried state on an exception, the returned state on success). -/
def exDB {β : Type} : Except DB (DB × β) → DB
  | .error d => d
  | .ok x => x.fst

theorem find?_update_key_other {s f setup0 full0 : String}
    (g : ReportedRow → ReportedRow)
    (hg : ∀ r, (g r).setup_id = r.setup_id ∧ (g r).fullname = r.fullname)
    (l : List ReportedRow) (hne : ¬(s = setup0 ∧ f = full0)) :
    (updateRows (fun r => r.setup_id == setup0 && r.fullname == full0) g l).find?
      (fun r => r.setup_id == s && r.fullname == f) =
    l.find? (fun r => r.setup_id == s && r.fullname == f) := by
  apply find?_updateRows_disjoint
  · intro r
    simp [(hg r).1, (hg r).2]
  · intro r hr
    simp only [Bool.and_eq_true, beq_iff_eq] at hr
    by_cases h1 : s = setup0
    · have h2 : f ≠ full0 := fun h => hne ⟨h1, h⟩
      simp [hr.1, hr.2, h2]
    · simp [hr.1, h1]

theorem findRow_set_other (db : DB) (full0 setup0 : String) (c m : Int)
    (s f : String) (hne : ¬(s = setup0 ∧ f = full0)) :
    findRow (set_discord_message db full0 setup0 c m) s f = findRow db s f := by
  unfold set_discord_message findRow
  dsimp only
  apply find?_update_key_other
  · exact fun _ => ⟨rfl, rfl⟩
  · exact hne

theorem findRow_clear_other (db : DB) (full0 setup0 : String)
    (s f : String) (hne : ¬(s = setup0 ∧ f = full0)) :
    findRow (clear_discord_message db full0 setup0) s f = findRow db s f := by
  unfold clear_discord_message findRow
  dsimp only
  apply find?_update_key_other
  · exact fun _ => ⟨rfl, rfl⟩
  · exact hne

theorem findRow_mark_other (db : DB) (full0 setup0 : String)
    (s f : String) (hne : ¬(s = setup0 ∧ f = full0)) :
    findRow (mark_handled db full0 setup0) s f = findRow db s f := by
  unfold mark_handled findRow
  dsimp only
  apply find?_update_key_other
  · exact fun _ => ⟨rfl, rfl⟩
  · exact hne

theorem findRow_save_view (db : DB) (rec : ViewRow) (s f : String) :
    findRow (save_view db rec) s f = findRow db s f := by
  unfold save_view findRow
  split <;> rfl

theorem findRow_delete_view (db : DB) (m : Int) (s f : String) :
    findRow (delete_view db m) s f = findRow db s f := rfl

theorem find?_append_some {α : Type} (p : α → Bool) (l1 l2 : List α) (x : α)
    (h : l1.find? p = some x) : (l1 ++ l2).find? p = some x := by
  induction l1 with
  | nil => cases h
  | cons a l ih =>
    by_cases ha : p a = true
    · rw [List.find?_cons_of_pos _ ha] at h
      rw [List.cons_append, List.find?_cons_of_pos _ ha]
      exact h
    · rw [List.find?_cons_of_neg _ ha] at h
      rw [List.cons_append, List.find?_cons_of_neg _ ha]
      exact ih h

theorem findRow_should_alert_other (db : DB) (item : ReportedItem)
    (setup0 : String) (g now : Int) (s f : String)
    (hne : ¬(s = setup0 ∧ f = item.fullname)) :
    findRow (should_alert db item setup0 g now).snd s f = findRow db s f := by
  unfold should_alert
  cases hfind : findRow db setup0 item.fullname with
  | none =>
    dsimp only
    show ((db.reported_items ++ [_]).find? _) = findRow db s f
    cases hcur : findRow db s f with
    | none =>
      rw [find?_append_none _ _ _ hcur]
      rw [List.find?_cons_of_neg]
      · rfl
      · intro hcontr
        simp only [Bool.and_eq_true, beq_iff_eq] at hcontr
        exact hne ⟨hcontr.1.symm, hcontr.2.symm⟩
    | some x =>
      exact find?_append_some _ _ _ _ hcur
  | some row =>
    dsimp only
    have hbase : ∀ l, List.find? (fun r : ReportedRow => r.setup_id == s && r.fullname == f)
        (updateRows (fun r => r.setup_id == setup0 && r.fullname == item.fullname)
          (fun r => { r with last_seen_at := now, report_count := item.num_reports }) l) =
        List.find? (fun r => r.setup_id == s && r.fullname == f) l := by
      intro l
      apply find?_update_key_other
      · exact fun _ => ⟨rfl, rfl⟩
      · exact hne
    split
    · exact hbase db.reported_items
    · split <;> exact hbase db.reported_items

theorem findRow_editAlertSend (env : PollEnv) (cfg : RunCfg) (db : DB)
    (fullname : String) (c m : Int) (p3 : ReportViewPayload) (now : Int)
    (s f : String) (hne : ¬(s = cfg.setup_id ∧ f = fullname)) :
    findRow (editAlertSend env cfg db fullname c m p3 now).fst s f =
      findRow db s f := by
  unfold editAlertSend
  split
  · split <;>
      first
        | rfl
        | (rw [findRow_delete_view]; exact findRow_clear_other _ _ _ _ _ hne)
        | (split <;>
            first
              | rfl
              | (rw [findRow_delete_view]; exact findRow_clear_other _ _ _ _ _ hne)
              | (rw [findRow_save_view]))
  · rw [findRow_delete_view]
    exact findRow_clear_other _ _ _ _ _ hne

theorem findRow_editAlert_other (env : PollEnv) (cfg : RunCfg) (db : DB)
    (fullname : String) (c m : Int) (nr : Option ReportedItem)
    (rs : Option RefreshState) (now : Int) (s f : String)
    (hne : ¬(s = cfg.setup_id ∧ f = fullname)) :
    findRow (exDB (editAlertMessage env cfg db fullname c m nr rs now)) s f =
      findRow db s f := by
  unfold editAlertMessage
  cases hv : get_view db m with
  | none =>
    cases nr with
    | none => rfl
    | some r =>
      generalize ReportViewPayload.from_reported_item r (some cfg.setup_id) = P
      dsimp only
      cases rs
      all_goals
        repeat' split
        all_goals
          first
            | rfl
            | exact findRow_editAlertSend env cfg db fullname c m _ now s f hne
  | some vr =>
    dsimp only
    cases hp : ReportViewPayload.from_dict vr.payload_json with
    | error e => rfl
    | ok p =>
      dsimp only
      cases nr <;> cases rs
      all_goals
        repeat' split
        all_goals
          first
            | rfl
            | exact findRow_editAlertSend env cfg db fullname c m _ now s f hne

theorem findRow_updateExisting_other (env : PollEnv) (cfg : RunCfg) (db : DB)
    (report : ReportedItem) (now : Int) (s f : String)
    (hne : ¬(s = cfg.setup_id ∧ f = report.fullname)) :
    findRow (exDB (updateExistingAlert env cfg db report now)) s f =
      findRow db s f := by
  unfold updateExistingAlert
  dsimp only
  split
  · rfl
  · split
    · exact findRow_editAlert_other env cfg db report.fullname _ _ _ _ now s f hne
    · rfl

theorem findRow_pollStep_other (env : PollEnv) (cfg : RunCfg) (chanId : Int)
    (db : DB) (r : ReportedItem) (now : Int) (s f : String)
    (hne : ¬(s = cfg.setup_id ∧ f = r.fullname)) :
    findRow (exDB (pollStep env cfg chanId db r now)) s f = findRow db s f := by
  unfold pollStep
  dsimp only
  split
  · rfl
  split
  · rfl
  have hsa := findRow_should_alert_other db r cfg.setup_id cfg.guild_id now s f hne
  split
  · cases hua : updateExistingAlert env cfg
      (should_alert db r cfg.setup_id cfg.guild_id now).snd r now with
    | error dbe =>
      have hx := findRow_updateExisting_other env cfg
        (should_alert db r cfg.setup_id cfg.guild_id now).snd r now s f hne
      rw [hua] at hx
      exact hx.trans hsa
    | ok pr =>
      have hx := findRow_updateExisting_other env cfg
        (should_alert db r cfg.setup_id cfg.guild_id now).snd r now s f hne
      rw [hua] at hx
      exact hx.trans hsa
  · split
    · exact hsa
    · dsimp only [exDB]
      rw [findRow_save_view]
      rw [findRow_set_other _ _ _ _ _ _ _ hne]
      exact hsa

theorem should_alert_views (db : DB) (item : ReportedItem) (setup_id : String)
    (guild_id now : Int) :
    (should_alert db item setup_id guild_id now).snd.alert_views = db.alert_views := by
  unfold should_alert
  cases hfind : findRow db setup_id item.fullname with
  | none => rfl
  | some row =>
    dsimp only
    split
    · rfl
    · split <;> rfl

theorem should_alert_fst (db : DB) (item : ReportedItem) (setup_id : String)
    (guild_id now : Int) :
    (should_alert db item setup_id guild_id now).fst =
      (match findRow db setup_id item.fullname with
       | none => true
       | some row => row.discord_message_id.isNone) := by
  unfold should_alert
  cases hfind : findRow db setup_id item.fullname with
  | none => rfl
  | some row =>
    dsimp only
    split
    · rename_i hmsg
      exact hmsg.symm
    · rename_i hmsg
      have hn : row.discord_message_id.isNone = false := by
        rw [Bool.not_eq_true] at hmsg
        exact hmsg
      split <;> exact hn.symm

theorem should_alert_find_after (db : DB) (item : ReportedItem) (setup_id : String)
    (guild_id now : Int) :
    findRow (should_alert db item setup_id guild_id now).snd setup_id item.fullname =
      some (match findRow db setup_id item.fullname with
        | none =>
          { setup_id := setup_id, guild_id := guild_id, fullname := item.fullname,
            thing_kind := kindStr item.kind, subreddit := item.subreddit,
            first_reported_at := now, last_seen_at := now,
            report_count := item.num_reports, handled := false,
            discord_channel_id := none, discord_message_id := none }
        | some row => { row with last_seen_at := now, report_count := item.num_reports }) := by
  unfold should_alert
  cases hfind : findRow db setup_id item.fullname with
  | none =>
    dsimp only
    show ((db.reported_items ++ [_]).find? _) = _
    rw [find?_append_none _ _ _ hfind]
    simp
  | some row =>
    dsimp only
    have hupd : (updateRows
        (fun q => q.setup_id == setup_id && q.fullname == item.fullname)
        (fun q => { q with last_seen_at := now, report_count := item.num_reports })
        db.reported_items).find?
        (fun q => q.setup_id == setup_id && q.fullname == item.fullname) =
        some { row with last_seen_at := now, report_count := item.num_reports } := by
      rw [find?_updateRows _ _ _ (fun q hq => by simpa using hq)]
      rw [show db.reported_items.find?
        (fun q => q.setup_id == setup_id && q.fullname == item.fullname) = some row from hfind]
      rfl
    split
    · exact hupd
    · split <;> exact hupd

theorem findRow_pollItems_other (env : PollEnv) (cfg : RunCfg) (chanId now : Int)
    (reports : List ReportedItem) (db : DB) (posted : Int) (seen : List String)
    (s f : String) (hall : ∀ r' ∈ reports, ¬(s = cfg.setup_id ∧ f = r'.fullname)) :
    findRow (pollItems env cfg chanId now reports db posted seen).fst s f =
      findRow db s f := by
  induction reports generalizing db posted seen with
  | nil => rfl
  | cons r rest ih =>
    dsimp only [pollItems]
    have hx := findRow_pollStep_other env cfg chanId db r now s f
      (hall r (by simp))
    cases hstep : pollStep env cfg chanId db r now with
    | error dbe =>
      rw [hstep] at hx
      exact hx
    | ok pr =>
      rw [hstep] at hx
      obtain ⟨db', postedHere⟩ := pr
      exact (ih db' _ _ (fun r' h => hall r' (by simp [h]))).trans hx

theorem findRow_drift_seen (env : PollEnv) (cfg : RunCfg) (db : DB)
    (seen : List String) (now : Int) (s f : String) (hseen : f ∈ seen) :
    findRow (refreshUnhandledAlerts env cfg db seen now) s f = findRow db s f := by
  unfold refreshUnhandledAlerts
  generalize list_unhandled_alerts db cfg.setup_id 50 = refs
  induction refs generalizing db with
  | nil => rfl
  | cons x rest ih =>
    dsimp only [List.foldl]
    rcases x with ⟨xf, xc, xm⟩
    dsimp only
    by_cases hskip : seen.contains xf
    · rw [if_pos hskip]
      exact ih db
    · rw [if_neg hskip]
      have hnex : ¬(s = cfg.setup_id ∧ f = xf) := by
        rintro ⟨-, hf⟩
        subst hf
        exact hskip (by simpa using hseen)
      cases hr : env.refresh xf with
      | error e =>
        cases e <;> dsimp only
        · exact (ih _).trans (findRow_mark_other _ _ _ _ _ hnex)
        · exact ih db
      | ok st =>
        dsimp only
        cases hedit : editAlertMessage env cfg db xf xc xm none (some st) now with
        | error dbe =>
          have hx := findRow_editAlert_other env cfg db xf xc xm none (some st) now s f hnex
          rw [hedit] at hx
          exact (ih _).trans hx
        | ok pr =>
          have hx := findRow_editAlert_other env cfg db xf xc xm none (some st) now s f hnex
          rw [hedit] at hx
          obtain ⟨db', calls⟩ := pr
          exact (ih _).trans hx

theorem pollItems_seen_mono (env : PollEnv) (cfg : RunCfg) (chanId now : Int)
    (reports : List ReportedItem) (db : DB) (posted : Int) (seen : List String) :
    ∀ f ∈ seen, f ∈ (pollItems env cfg chanId now reports db posted seen).snd.snd.fst := by
  induction reports generalizing db posted seen with
  | nil => intro f hf; exact hf
  | cons r rest ih =>
    intro f hf
    dsimp only [pollItems]
    cases hstep : pollStep env cfg chanId db r now with
    | error dbe => simp [hf]
    | ok pr =>
      obtain ⟨db', ph⟩ := pr
      exact ih _ _ _ f (by simp [hf])

/-- C3: when the send of a new alert fails, the item is skipped — no message
binding and no view row is written for it, the posted count does not grow, the
loop continues with the remaining items, and the item remains eligible
(`should_alert` would return true again); after the remaining items (assuming
they concern other items, as a Reddit listing does) and the drift refresh, the
item is still unbound and eligible. -/
theorem C3_send_failure_no_partial_commit (env : PollEnv) (cfg : RunCfg)
    (chanId now : Int) (db : DB) (r : ReportedItem) (rest : List ReportedItem)
    (posted : Int) (seen : List String)
    (hage : passes_age (ReportViewPayload.from_reported_item r (some cfg.setup_id))
      cfg.settings now = true)
    (hth : passes_threshold (ReportViewPayload.from_reported_item r (some cfg.setup_id))
      cfg.settings = true)
    (helig : (should_alert db r cfg.setup_id cfg.guild_id now).fst = true)
    (hsend : env.send r = none) :
    pollStep env cfg chanId db r now =
      .ok ((should_alert db r cfg.setup_id cfg.guild_id now).snd, false) ∧
    (should_alert db r cfg.setup_id cfg.guild_id now).snd.alert_views = db.alert_views ∧
    (∃ row, findRow (should_alert db r cfg.setup_id cfg.guild_id now).snd
        cfg.setup_id r.fullname = some row ∧ row.discord_message_id = none) ∧
    (should_alert (should_alert db r cfg.setup_id cfg.guild_id now).snd r
        cfg.setup_id cfg.guild_id now).fst = true ∧
    pollItems env cfg chanId now (r :: rest) db posted seen =
      pollItems env cfg chanId now rest
        (should_alert db r cfg.setup_id cfg.guild_id now).snd posted
        (seen ++ [r.fullname]) ∧
    ((∀ r' ∈ rest, r'.fullname ≠ r.fullname) →
      ∃ row,
        findRow
          (refreshUnhandledAlerts env cfg
            (pollItems env cfg chanId now rest
              (should_alert db r cfg.setup_id cfg.guild_id now).snd posted
              (seen ++ [r.fullname])).fst
            (pollItems env cfg chanId now rest
              (should_alert db r cfg.setup_id cfg.guild_id now).snd posted
              (seen ++ [r.fullname])).snd.snd.fst now)
          cfg.setup_id r.fullname = some row ∧
        row.discord_message_id = none) := by
  have hmsg : ∀ row, findRow (should_alert db r cfg.setup_id cfg.guild_id now).snd
      cfg.setup_id r.fullname = some row → row.discord_message_id = none := by
    intro row hrow
    rw [should_alert_find_after] at hrow
    rw [should_alert_fst] at helig
    cases hfind : findRow db cfg.setup_id r.fullname with
    | none =>
      rw [hfind] at hrow
      cases hrow
      rfl
    | some row0 =>
      rw [hfind] at hrow helig
      cases hrow
      dsimp only
      simpa using helig
  have hafter := should_alert_find_after db r cfg.setup_id cfg.guild_id now
  have hrow3 : ∃ row, findRow (should_alert db r cfg.setup_id cfg.guild_id now).snd
      cfg.setup_id r.fullname = some row ∧ row.discord_message_id = none :=
    ⟨_, hafter, hmsg _ hafter⟩
  have hstep : pollStep env cfg chanId db r now =
      .ok ((should_alert db r cfg.setup_id cfg.guild_id now).snd, false) := by
    unfold pollStep
    dsimp only
    rw [hage, hth, helig, hsend]
    rfl
  have helig2 : (should_alert (should_alert db r cfg.setup_id cfg.guild_id now).snd r
      cfg.setup_id cfg.guild_id now).fst = true := by
    rw [should_alert_fst, hafter]
    obtain ⟨row, hrow, hnone⟩ := hrow3
    rw [hafter] at hrow
    cases hrow
    simpa using hnone
  refine ⟨hstep, should_alert_views db r cfg.setup_id cfg.guild_id now, hrow3,
    helig2, ?_, ?_⟩
  · dsimp only [pollItems]
    rw [hstep]
    rfl
  · intro hdist
    obtain ⟨row, hrow, hnone⟩ := hrow3
    refine ⟨row, ?_, hnone⟩
    rw [findRow_drift_seen]
    · rw [findRow_pollItems_other]
      · exact hrow
      · intro r' hr' hcontr
        exact hdist r' hr' (hcontr.2.symm)
    · exact pollItems_seen_mono env cfg chanId now rest _ posted _ r.fullname
        (by simp)

/-- Oracles where every Discord send fails. -/
def failEnv : PollEnv := { sampleEnv with send := fun _ => none }

/-- Witness for C3 at a concrete input: with a failing send, the step leaves
the views untouched and records no binding. -/
theorem C3_send_failure_no_partial_commit_witness :
    pollStep failEnv sampleCfg 77 DB.empty sampleItem 1000 =
      .ok ((should_alert DB.empty sampleItem "s1" 5 1000).snd, false) ∧
    (should_alert DB.empty sampleItem "s1" 5 1000).snd.alert_views =
      DB.empty.alert_views ∧
    (should_alert (should_alert DB.empty sampleItem "s1" 5 1000).snd sampleItem
      "s1" 5 1000).fst = true := by
  have h := C3_send_failure_no_partial_commit failEnv sampleCfg 77 1000 DB.empty
    sampleItem [] 0 [] (by decide) (by decide) (by decide) rfl
  exact ⟨h.1, h.2.1, h.2.2.2.1⟩

theorem find?_updateRows_none {α : Type} (p q : α → Bool) (g : α → α) (l : List α)
    (hq : ∀ r, q (g r) = q r) (h : l.find? q = none) :
    (updateRows p g l).find? q = none := by
  induction l with
  | nil => exact h
  | cons a l ih =>
    rw [List.find?_eq_none] at h
    have ha : ¬ q a = true := h a (by simp)
    have hrest : l.find? q = none :=
      List.find?_eq_none.mpr fun x hx => h x (by simp [hx])
    simp only [updateRows, List.map_cons]
    by_cases hpa : p a = true
    · rw [if_pos hpa, List.find?_cons_of_neg _ (by rw [hq]; exact ha)]
      exact ih hrest
    · rw [if_neg hpa, List.find?_cons_of_neg _ ha]
      exact ih hrest

theorem findRow_clear_none (db : DB) (full0 setup0 s f : String)
    (h : findRow db s f = none) :
    findRow (clear_discord_message db full0 setup0) s f = none := by
  unfold clear_discord_message findRow
  dsimp only
  exact find?_updateRows_none _ _ _ _ (fun _ => rfl) h

theorem findRow_mark_none (db : DB) (full0 setup0 s f : String)
    (h : findRow db s f = none) :
    findRow (mark_handled db full0 setup0) s f = none := by
  unfold mark_handled findRow
  dsimp only
  exact find?_updateRows_none _ _ _ _ (fun _ => rfl) h

theorem findRow_editAlertSend_none (env : PollEnv) (cfg : RunCfg) (db : DB)
    (fullname : String) (c m : Int) (p3 : ReportViewPayload) (now : Int)
    (s f : String) (h : findRow db s f = none) :
    findRow (editAlertSend env cfg db fullname c m p3 now).fst s f = none := by
  unfold editAlertSend
  split
  · split <;>
      first
        | exact h
        | (rw [findRow_delete_view]; exact findRow_clear_none _ _ _ _ _ h)
        | (split <;>
            first
              | exact h
              | (rw [findRow_delete_view]; exact findRow_clear_none _ _ _ _ _ h)
              | (rw [findRow_save_view]; exact h))
  · rw [findRow_delete_view]
    exact findRow_clear_none _ _ _ _ _ h

theorem findRow_editAlert_none (env : PollEnv) (cfg : RunCfg) (db : DB)
    (fullname : String) (c m : Int) (nr : Option ReportedItem)
    (rs : Option RefreshState) (now : Int) (s f : String)
    (h : findRow db s f = none) :
    findRow (exDB (editAlertMessage env cfg db fullname c m nr rs now)) s f =
      none := by
  unfold editAlertMessage
  cases hv : get_view db m with
  | none =>
    cases nr with
    | none => exact h
    | some r =>
      generalize ReportViewPayload.from_reported_item r (some cfg.setup_id) = P
      dsimp only
      cases rs
      all_goals
        repeat' split
        all_goals
          first
            | exact h
            | exact findRow_editAlertSend_none env cfg db fullname c m _ now s f h
  | some vr =>
    dsimp only
    cases hp : ReportViewPayload.from_dict vr.payload_json with
    | error e => exact h
    | ok p =>
      dsimp only
      cases nr <;> cases rs
      all_goals
        repeat' split
        all_goals
          first
            | exact h
            | exact findRow_editAlertSend_none env cfg db fullname c m _ now s f h

theorem findRow_drift_none (env : PollEnv) (cfg : RunCfg) (db : DB)
    (seen : List String) (now : Int) (s f : String)
    (h : findRow db s f = none) :
    findRow (refreshUnhandledAlerts env cfg db seen now) s f = none := by
  unfold refreshUnhandledAlerts
  generalize list_unhandled_alerts db cfg.setup_id 50 = refs
  induction refs generalizing db with
  | nil => exact h
  | cons x rest ih =>
    dsimp only [List.foldl]
    rcases x with ⟨xf, xc, xm⟩
    dsimp only
    by_cases hskip : seen.contains xf
    · rw [if_pos hskip]
      exact ih db h
    · rw [if_neg hskip]
      cases hr : env.refresh xf with
      | error e =>
        cases e <;> dsimp only
        · exact ih _ (findRow_mark_none _ _ _ _ _ h)
        · exact ih db h
      | ok st =>
        dsimp only
        cases hedit : editAlertMessage env cfg db xf xc xm none (some st) now with
        | error dbe =>
          have hx := findRow_editAlert_none env cfg db xf xc xm none (some st) now s f h
          rw [hedit] at hx
          exact ih _ hx
        | ok pr =>
          have hx := findRow_editAlert_none env cfg db xf xc xm none (some st) now s f h
          rw [hedit] at hx
          obtain ⟨db', calls⟩ := pr
          exact ih _ hx

theorem pollStep_filtered (env : PollEnv) (cfg : RunCfg) (chanId : Int)
    (db : DB) (r : ReportedItem) (now : Int)
    (hfail : passes_age (ReportViewPayload.from_reported_item r (some cfg.setup_id))
        cfg.settings now = false ∨
      passes_threshold (ReportViewPayload.from_reported_item r (some cfg.setup_id))
        cfg.settings = false) :
    pollStep env cfg chanId db r now = .ok (db, false) := by
  unfold pollStep
  dsimp only
  cases hage : passes_age (ReportViewPayload.from_reported_item r (some cfg.setup_id))
      cfg.settings now with
  | false => rfl
  | true =>
    have hth : passes_threshold (ReportViewPayload.from_reported_item r (some cfg.setup_id))
        cfg.settings = false := by
      rcases hfail with h | h
      · rw [hage] at h
        cases h
      · exact h
    rw [hth]
    rfl

theorem save_modlog_reported (s : String) (entries : List (String × Int × String)) :
    ∀ db : DB, (save_modlog_entries db s entries).reported_items = db.reported_items := by
  unfold save_modlog_entries
  induction entries with
  | nil => intro db; rfl
  | cons e rest ih =>
    intro db
    rw [List.foldl_cons, ih]
    dsimp only
    split <;> rfl

theorem update_modlog_reported (db : DB) (s : String) (t : Int) :
    (update_modlog_state db s t).reported_items = db.reported_items := by
  unfold update_modlog_state
  split <;> rfl

theorem refresh_modlog_reported (cfg : RunCfg) (bot : Option String)
    (acts : List RawAction) (db : DB) :
    (refresh_modlog_cache cfg bot acts db).reported_items = db.reported_items := by
  unfold refresh_modlog_cache
  dsimp only
  repeat' split
  all_goals
    first
      | rfl
      | (rw [save_modlog_reported])
      | (rw [update_modlog_reported, save_modlog_reported])

theorem pollItems_none_preserved (env : PollEnv) (cfg : RunCfg) (chanId now : Int)
    (reports : List ReportedItem) (db : DB) (posted : Int) (seen : List String)
    (f : String) (hnone : findRow db cfg.setup_id f = none)
    (hno : ∀ r' ∈ reports, r'.fullname = f →
      passes_age (ReportViewPayload.from_reported_item r' (some cfg.setup_id))
        cfg.settings now = false ∨
      passes_threshold (ReportViewPayload.from_reported_item r' (some cfg.setup_id))
        cfg.settings = false) :
    findRow (pollItems env cfg chanId now reports db posted seen).fst
      cfg.setup_id f = none := by
  induction reports generalizing db posted seen with
  | nil => exact hnone
  | cons r rest ih =>
    dsimp only [pollItems]
    by_cases hf : r.fullname = f
    · rw [pollStep_filtered env cfg chanId db r now (hno r (by simp) hf)]
      exact ih db posted _ hnone (fun r' h hh => hno r' (by simp [h]) hh)
    · have hx := findRow_pollStep_other env cfg chanId db r now cfg.setup_id f
        (fun hc => hf hc.2.symm)
      cases hstep : pollStep env cfg chanId db r now with
      | error dbe =>
        rw [hstep] at hx
        exact hx.trans hnone
      | ok pr =>
        rw [hstep] at hx
        obtain ⟨db', ph⟩ := pr
        exact ih db' _ _ (hx.trans hnone) (fun r' h hh => hno r' (by simp [h]) hh)

theorem save_view_has (db : DB) (rec : ViewRow) :
    ∃ v, v ∈ (save_view db rec).alert_views ∧ v.message_id = rec.message_id := by
  unfold save_view
  split
  · rename_i hany
    rw [List.any_eq_true] at hany
    obtain ⟨v, hv, hvm⟩ := hany
    rw [beq_iff_eq] at hvm
    refine ⟨{ v with payload_json := rec.payload_json, created_at := rec.created_at },
      ?_, hvm⟩
    have hmem := List.mem_map_of_mem
      (fun w => if w.message_id == rec.message_id then
        { w with payload_json := rec.payload_json, created_at := rec.created_at }
        else w) hv
    simpa [updateRows, hvm] using hmem
  · exact ⟨rec, by simp, rfl⟩

theorem findRow_congr_reported (db1 db2 : DB)
    (h : db1.reported_items = db2.reported_items) (s f : String) :
    findRow db1 s f = findRow db2 s f := by
  unfold findRow
  rw [h]

/-- C9: a DedupRecord is created only for sightings that pass both the age and
the threshold filter (items failing either leave the store untouched, and a
record appearing over a cycle implies a passing sighting of that item in the
fetched batch); once such an item re-fetches with a passing report count,
`should_alert` returns true and the alert is created: the message is bound and
a view row is persisted. -/
theorem C9_dedup_after_filters (env : PollEnv) (cfg : RunCfg) (chanId now : Int)
    (db : DB) (r : ReportedItem) (reports : List ReportedItem) (f : String)
    (mid : Int) :
    ((passes_age (ReportViewPayload.from_reported_item r (some cfg.setup_id))
        cfg.settings now = false ∨
      passes_threshold (ReportViewPayload.from_reported_item r (some cfg.setup_id))
        cfg.settings = false) →
      pollStep env cfg chanId db r now = .ok (db, false)) ∧
    (env.fetchReports = .ok reports →
      findRow db cfg.setup_id f = none →
      (findRow (pollOnce env cfg db now).fst cfg.setup_id f).isSome = true →
      ∃ r' ∈ reports, r'.fullname = f ∧
        passes_age (ReportViewPayload.from_reported_item r' (some cfg.setup_id))
          cfg.settings now = true ∧
        passes_threshold (ReportViewPayload.from_reported_item r' (some cfg.setup_id))
          cfg.settings = true) ∧
    (findRow db cfg.setup_id r.fullname = none →
      passes_age (ReportViewPayload.from_reported_item r (some cfg.setup_id))
        cfg.settings now = true →
      passes_threshold (ReportViewPayload.from_reported_item r (some cfg.setup_id))
        cfg.settings = true →
      env.send r = some mid →
      (should_alert db r cfg.setup_id cfg.guild_id now).fst = true ∧
      pollStep env cfg chanId db r now =
        .ok (save_view
          (set_discord_message (should_alert db r cfg.setup_id cfg.guild_id now).snd
            r.fullname cfg.setup_id chanId mid)
          ⟨mid, chanId, cfg.guild_id,
            (ReportViewPayload.from_reported_item r (some cfg.setup_id)).to_dict, now⟩,
          true) ∧
      (∃ row, findRow (save_view
          (set_discord_message (should_alert db r cfg.setup_id cfg.guild_id now).snd
            r.fullname cfg.setup_id chanId mid)
          ⟨mid, chanId, cfg.guild_id,
            (ReportViewPayload.from_reported_item r (some cfg.setup_id)).to_dict, now⟩)
          cfg.setup_id r.fullname = some row ∧
        row.discord_message_id = some mid) ∧
      (∃ v, v ∈ (save_view
          (set_discord_message (should_alert db r cfg.setup_id cfg.guild_id now).snd
            r.fullname cfg.setup_id chanId mid)
          ⟨mid, chanId, cfg.guild_id,
            (ReportViewPayload.from_reported_item r (some cfg.setup_id)).to_dict, now⟩).alert_views ∧
        v.message_id = mid)) := by
  refine ⟨fun hfail => pollStep_filtered env cfg chanId db r now hfail, ?_, ?_⟩
  · intro hrep hnone hsome
    by_contra hcon
    have hno : ∀ r' ∈ reports, r'.fullname = f →
        passes_age (ReportViewPayload.from_reported_item r' (some cfg.setup_id))
          cfg.settings now = false ∨
        passes_threshold (ReportViewPayload.from_reported_item r' (some cfg.setup_id))
          cfg.settings = false := by
      intro r' hr' hf
      by_cases ha : passes_age (ReportViewPayload.from_reported_item r' (some cfg.setup_id))
          cfg.settings now = true
      · by_cases ht : passes_threshold (ReportViewPayload.from_reported_item r' (some cfg.setup_id))
            cfg.settings = true
        · exact absurd ⟨r', hr', hf, ha, ht⟩ hcon
        · right
          rw [Bool.not_eq_true] at ht
          exact ht
      · left
        rw [Bool.not_eq_true] at ha
        exact ha
    have hfinal : findRow (pollOnce env cfg db now).fst cfg.setup_id f = none := by
      unfold pollOnce
      cases hmc : env.modChannel with
      | none => exact hnone
      | some c0 =>
        dsimp only
        rw [hrep]
        dsimp only
        have hnonem : findRow (refresh_modlog_cache cfg env.botUsername env.modlogActions db)
            cfg.setup_id f = none :=
          (findRow_congr_reported _ db
            (refresh_modlog_reported cfg env.botUsername env.modlogActions db)
            cfg.setup_id f).trans hnone
        rcases hpi : pollItems env cfg c0 now reports
          (refresh_modlog_cache cfg env.botUsername env.modlogActions db) 0 [] with
          ⟨db2, p2, s2, ab⟩
        have hnone2 : findRow db2 cfg.setup_id f = none := by
          have hx := pollItems_none_preserved env cfg c0 now reports
            (refresh_modlog_cache cfg env.botUsername env.modlogActions db) 0 [] f
            hnonem hno
          rw [hpi] at hx
          exact hx
        cases ab with
        | true => exact hnone2
        | false => exact findRow_drift_none env cfg db2 s2 now cfg.setup_id f hnone2
    rw [hfinal] at hsome
    cases hsome
  · intro hnone hage hth hsend
    have hsa : (should_alert db r cfg.setup_id cfg.guild_id now).fst = true := by
      rw [should_alert_fst, hnone]
    have hafter := should_alert_find_after db r cfg.setup_id cfg.guild_id now
    rw [hnone] at hafter
    have hstep : pollStep env cfg chanId db r now =
        .ok (save_view
          (set_discord_message (should_alert db r cfg.setup_id cfg.guild_id now).snd
            r.fullname cfg.setup_id chanId mid)
          ⟨mid, chanId, cfg.guild_id,
            (ReportViewPayload.from_reported_item r (some cfg.setup_id)).to_dict, now⟩,
          true) := by
      unfold pollStep
      dsimp only
      rw [hage, hth, hsa, hsend]
      rfl
    have hbound : ∃ row, findRow (save_view
        (set_discord_message (should_alert db r cfg.setup_id cfg.guild_id now).snd
          r.fullname cfg.setup_id chanId mid)
        ⟨mid, chanId, cfg.guild_id,
          (ReportViewPayload.from_reported_item r (some cfg.setup_id)).to_dict, now⟩)
        cfg.setup_id r.fullname = some row ∧ row.discord_message_id = some mid := by
      rw [findRow_save_view]
      unfold set_discord_message findRow
      dsimp only
      rw [find?_updateRows _ _ _ (fun q hq => by simpa using hq)]
      rw [show ((should_alert db r cfg.setup_id cfg.guild_id now).snd.reported_items.find?
        fun q => q.setup_id == cfg.setup_id && q.fullname == r.fullname) = _ from hafter]
      exact ⟨_, rfl, rfl⟩
    exact ⟨hsa, hstep, hbound, save_view_has _ _⟩

/-- Witness for C9 at a concrete input: with no prior record and passing
filters, the first sighting alerts, binds message 900 and saves its view. -/
theorem C9_dedup_after_filters_witness :
    (should_alert DB.empty sampleItem "s1" 5 1000).fst = true ∧
    (∃ v, v ∈ (save_view
        (set_discord_message (should_alert DB.empty sampleItem "s1" 5 1000).snd
          "t3_abc" "s1" 77 900)
        ⟨900, 77, 5,
          (ReportViewPayload.from_reported_item sampleItem (some "s1")).to_dict,
          1000⟩).alert_views ∧
      v.message_id = 900) := by
  have h := (C9_dedup_after_filters sampleEnv sampleCfg 77 1000 DB.empty
    sampleItem [] "x" 900).2.2 rfl (by decide) (by decide) rfl
  exact ⟨h.1, h.2.2.2⟩

theorem foldl_max_mem (as : List Int) : ∀ a, as.foldl max a = a ∨ as.foldl max a ∈ as := by
  induction as with
  | nil => intro a; exact Or.inl rfl
  | cons b bs ih =>
    intro a
    rw [List.foldl_cons]
    rcases ih (max a b) with h | h
    · rcases max_choice a b with hm | hm
      · left
        rw [h, hm]
      · right
        rw [h, hm]
        simp
    · right
      simp [h]

theorem foldl_max_le (as : List Int) :
    ∀ a, a ≤ as.foldl max a ∧ ∀ x ∈ as, x ≤ as.foldl max a := by
  induction as with
  | nil =>
    intro a
    refine ⟨le_refl a, ?_⟩
    intro x hx
    cases hx
  | cons b bs ih =>
    intro a
    rw [List.foldl_cons]
    obtain ⟨h1, h2⟩ := ih (max a b)
    refine ⟨le_trans (le_max_left a b) h1, ?_⟩
    intro x hx
    rcases List.mem_cons.mp hx with rfl | hx
    · exact le_trans (le_max_right a x) h1
    · exact h2 x hx

theorem maxSpec (l : List Int) (m : Int) (h : l.max? = some m) :
    m ∈ l ∧ ∀ x ∈ l, x ≤ m := by
  cases l with
  | nil => cases h
  | cons a as =>
    have hm : as.foldl max a = m := by
      have hdef : (a :: as).max? = some (as.foldl max a) := rfl
      rw [hdef] at h
      exact Option.some.inj h
    obtain ⟨h1, h2⟩ := foldl_max_le as a
    constructor
    · rcases foldl_max_mem as a with he | he
      · rw [← hm, he]
        simp
      · rw [← hm]
        simp [he]
    · intro x hx
      rcases List.mem_cons.mp hx with rfl | hx
      · rw [← hm]
        exact h1
      · rw [← hm]
        exact h2 x hx

theorem maxSome (l : List Int) (m : Int) (hm : m ∈ l) (hall : ∀ x ∈ l, x ≤ m) :
    l.max? = some m := by
  cases l with
  | nil => cases hm
  | cons a as =>
    have hdef : (a :: as).max? = some (as.foldl max a) := rfl
    rw [hdef]
    congr 1
    obtain ⟨h1, h2⟩ := foldl_max_le as a
    have hub : as.foldl max a ≤ m := by
      rcases foldl_max_mem as a with he | he
      · rw [he]
        exact hall a (by simp)
      · exact hall _ (by simp [he])
    have hlb : m ≤ as.foldl max a := by
      rcases List.mem_cons.mp hm with rfl | hx
      · exact h1
      · exact h2 m hx
    exact le_antisymm hub hlb

theorem fetchModlogLoop_bound (bot : Option String) (w : Int) :
    ∀ (acts : List RawAction) (e : String × Int × String),
      e ∈ fetchModlogLoop bot (some w) acts →
      e.snd.fst = 0 ∨ w ≤ e.snd.fst := by
  intro acts
  induction acts with
  | nil =>
    intro e he
    cases he
  | cons a rest ih =>
    intro e he
    unfold fetchModlogLoop at he
    dsimp only at he
    split at he
    · cases he
    · rename_i hbrk
      split at he
      · exact ih e he
      · split at he
        · exact ih e he
        · rename_i t ht
          split at he
          · exact ih e he
          · split at he
            · exact ih e he
            · rcases List.mem_cons.mp he with rfl | he2
              · dsimp only
                by_cases hc : a.created_utc.getD 0 = 0
                · exact Or.inl hc
                · right
                  by_contra hlt
                  push_neg at hlt
                  exact hbrk (by simp [hc, hlt])
              · exact ih e he2

theorem fetch_bound (bot : Option String) (lim : Int) (acts : List RawAction)
    (w : Int) :
    ∀ e ∈ fetch_recent_modlog_entries bot lim (some w) acts,
      e.snd.fst = 0 ∨ w ≤ e.snd.fst := by
  intro e he
  exact fetchModlogLoop_bound _ w _ e he

theorem save_modlog_state_field (s : String) (entries : List (String × Int × String)) :
    ∀ db : DB, (save_modlog_entries db s entries).modlog_state = db.modlog_state := by
  unfold save_modlog_entries
  induction entries with
  | nil => intro db; rfl
  | cons e rest ih =>
    intro db
    rw [List.foldl_cons, ih]
    dsimp only
    split <;> rfl

theorem get_modlog_save (db : DB) (s s' : String)
    (entries : List (String × Int × String)) :
    get_modlog_state (save_modlog_entries db s entries) s' = get_modlog_state db s' := by
  unfold get_modlog_state
  rw [save_modlog_state_field]

theorem get_modlog_update (db : DB) (s : String) (t : Int) :
    get_modlog_state (update_modlog_state db s t) s = some t := by
  unfold update_modlog_state get_modlog_state
  split
  · rename_i hany
    rw [List.any_eq_true] at hany
    obtain ⟨kv, hkv, hkvs⟩ := hany
    dsimp only
    have hrw := find?_updateRows (fun kv : String × Int => kv.fst == s)
      (fun kv => (kv.fst, t)) db.modlog_state (fun q hq => hq)
    rw [hrw]
    cases hfind : db.modlog_state.find? (fun kv => kv.fst == s) with
    | none =>
      exfalso
      exact absurd hkvs (List.find?_eq_none.mp hfind kv hkv)
    | some kv0 => rfl
  · rename_i hany
    dsimp only
    have hnone : db.modlog_state.find? (fun kv => kv.fst == s) = none := by
      rw [List.find?_eq_none]
      intro kv hkv hpkv
      exact hany (List.any_eq_true.mpr ⟨kv, hkv, hpkv⟩)
    rw [find?_append_none _ _ _ hnone]
    simp

theorem update_modlog_entries_field (db : DB) (s : String) (t : Int) :
    (update_modlog_state db s t).modlog_entries = db.modlog_entries := by
  unfold update_modlog_state
  split <;> rfl

theorem save_modlog_nodup (s : String) (entries : List (String × Int × String)) :
    ∀ db : DB, db.modlog_entries.Nodup →
      (save_modlog_entries db s entries).modlog_entries.Nodup := by
  unfold save_modlog_entries
  induction entries with
  | nil => intro db h; exact h
  | cons e rest ih =>
    intro db h
    rw [List.foldl_cons]
    apply ih
    dsimp only
    split
    · exact h
    · rename_i hcon
      rw [List.nodup_append]
      refine ⟨h, List.nodup_singleton _, ?_⟩
      intro x hx hx1
      rw [List.mem_singleton] at hx1
      subst hx1
      exact hcon (by simpa using hx)

theorem refresh_modlog_nodup (cfg : RunCfg) (bot : Option String)
    (acts : List RawAction) (db : DB) (h : db.modlog_entries.Nodup) :
    (refresh_modlog_cache cfg bot acts db).modlog_entries.Nodup := by
  unfold refresh_modlog_cache
  dsimp only
  repeat' split
  all_goals
    first
      | exact h
      | exact save_modlog_nodup _ _ db h
      | (rw [update_modlog_entries_field]; exact save_modlog_nodup _ _ db h)

/-- The non-zero timestamps of a batch of modlog entries (the values Python's
`max(entry[1] for entry in entries if entry[1])` ranges over). -/
def nzTs (l : List (String × Int × String)) : List Int :=
  l.filterMap (fun e => if e.snd.fst ≠ 0 then some e.snd.fst else none)

/-- Fold of modlog refresh cycles, also collecting every batch of entries the
cycles fetched (and, when non-empty, merged). -/
def refreshTrace (cfg : RunCfg) (bot : Option String) :
    List (List RawAction) → DB → DB × List (String × Int × String)
  | [], db => (db, [])
  | acts :: rest, db =>
    let merged := cycleEntries cfg bot db acts
    let step := refreshTrace cfg bot rest (refresh_modlog_cache cfg bot acts db)
    (step.fst, merged ++ step.snd)

theorem refresh_cycle_watermark (cfg : RunCfg) (bot : Option String)
    (acts : List RawAction) (db : DB) (acc : List Int)
    (hinv : get_modlog_state db cfg.setup_id = acc.max?) :
    get_modlog_state (refresh_modlog_cache cfg bot acts db) cfg.setup_id =
      (acc ++ nzTs (cycleEntries cfg bot db acts)).max? := by
  unfold refresh_modlog_cache cycleEntries
  by_cases h1 : cfg.demo_mode = true
  · rw [if_pos h1, if_pos h1]
    simp [nzTs, hinv]
  · rw [if_neg h1, if_neg h1]
    by_cases h2 : cfg.settings.modlog_fetch_limit ≤ 0
    · rw [if_pos h2, if_pos h2]
      simp [nzTs, hinv]
    · rw [if_neg h2, if_neg h2]
      by_cases h3 : cfg.settings.reddit_subreddit = none ∨
          cfg.settings.reddit_subreddit = some ""
      · rw [if_pos h3, if_pos h3]
        simp [nzTs, hinv]
      · rw [if_neg h3, if_neg h3]
        dsimp only
        by_cases hemp : (fetch_recent_modlog_entries bot cfg.settings.modlog_fetch_limit
            (get_modlog_state db cfg.setup_id) acts).isEmpty = true
        · rw [if_pos hemp]
          have hEnil : fetch_recent_modlog_entries bot cfg.settings.modlog_fetch_limit
              (get_modlog_state db cfg.setup_id) acts = [] := by
            simpa [List.isEmpty_iff] using hemp
          rw [hEnil]
          simp [nzTs, hinv]
        · rw [if_neg hemp]
          cases hmax : ((fetch_recent_modlog_entries bot cfg.settings.modlog_fetch_limit
              (get_modlog_state db cfg.setup_id) acts).filterMap
              (fun e => if e.snd.fst ≠ 0 then some e.snd.fst else none)).max? with
          | none =>
            dsimp only
            have hnil : nzTs (fetch_recent_modlog_entries bot
                cfg.settings.modlog_fetch_limit (get_modlog_state db cfg.setup_id)
                acts) = [] := List.max?_eq_none_iff.mp hmax
            rw [get_modlog_save, hnil]
            simp [hinv]
          | some newest =>
            dsimp only
            obtain ⟨hmem, hall⟩ := maxSpec _ _ hmax
            have hnz : newest ≠ 0 := by
              rw [List.mem_filterMap] at hmem
              obtain ⟨e, _, he⟩ := hmem
              by_cases h0 : e.snd.fst ≠ 0
              · rw [if_pos h0] at he
                cases he
                exact h0
              · rw [if_neg h0] at he
                cases he
            rw [if_pos hnz, get_modlog_update]
            refine (maxSome _ _ ?_ ?_).symm
            · rw [List.mem_append]
              right
              exact maxSpec _ _ hmax |>.1
            · intro x hx
              rw [List.mem_append] at hx
              rcases hx with hx | hx
              · cases hacc : acc.max? with
                | none =>
                  rw [List.max?_eq_none_iff.mp hacc] at hx
                  cases hx
                | some w =>
                  obtain ⟨-, hwall⟩ := maxSpec _ _ hacc
                  have hxw : x ≤ w := hwall x hx
                  have hwn : w ≤ newest := by
                    rw [List.mem_filterMap] at hmem
                    obtain ⟨e, heE, he⟩ := hmem
                    have hb : e.snd.fst = 0 ∨ w ≤ e.snd.fst := by
                      apply fetch_bound bot cfg.settings.modlog_fetch_limit acts w
                      rw [← show get_modlog_state db cfg.setup_id = some w from
                        hinv.trans hacc]
                      exact heE
                    by_cases h0 : e.snd.fst ≠ 0
                    · rw [if_pos h0] at he
                      cases he
                      exact hb.resolve_left h0
                    · rw [if_neg h0] at he
                      cases he
                  exact le_trans hxw hwn
              · exact hall x hx

theorem cycleEntries_bound (cfg : RunCfg) (bot : Option String)
    (acts : List RawAction) (db : DB) (w : Int)
    (hw : get_modlog_state db cfg.setup_id = some w) :
    ∀ e ∈ cycleEntries cfg bot db acts, e.snd.fst = 0 ∨ w ≤ e.snd.fst := by
  intro e he
  unfold cycleEntries at he
  split at he
  · cases he
  split at he
  · cases he
  split at he
  · cases he
  rw [hw] at he
  exact fetch_bound bot cfg.settings.modlog_fetch_limit acts w e he

theorem refresh_cycle_monotone (cfg : RunCfg) (bot : Option String)
    (acts : List RawAction) (db : DB) (w : Int)
    (hw : get_modlog_state db cfg.setup_id = some w) :
    ∃ w', get_modlog_state (refresh_modlog_cache cfg bot acts db) cfg.setup_id =
      some w' ∧ w ≤ w' := by
  unfold refresh_modlog_cache
  by_cases h1 : cfg.demo_mode = true
  · rw [if_pos h1]
    exact ⟨w, hw, le_refl w⟩
  rw [if_neg h1]
  by_cases h2 : cfg.settings.modlog_fetch_limit ≤ 0
  · rw [if_pos h2]
    exact ⟨w, hw, le_refl w⟩
  rw [if_neg h2]
  by_cases h3 : cfg.settings.reddit_subreddit = none ∨
      cfg.settings.reddit_subreddit = some ""
  · rw [if_pos h3]
    exact ⟨w, hw, le_refl w⟩
  rw [if_neg h3]
  dsimp only
  by_cases hemp : (cycleEntries cfg bot db acts).isEmpty = true
  · rw [if_pos hemp]
    exact ⟨w, hw, le_refl w⟩
  rw [if_neg hemp]
  cases hmax : ((cycleEntries cfg bot db acts).filterMap
      (fun e => if e.snd.fst ≠ 0 then some e.snd.fst else none)).max? with
  | none =>
    dsimp only
    exact ⟨w, (get_modlog_save db _ _ _).trans hw, le_refl w⟩
  | some newest =>
    dsimp only
    obtain ⟨hmem, -⟩ := maxSpec _ _ hmax
    have hnz : newest ≠ 0 := by
      rw [List.mem_filterMap] at hmem
      obtain ⟨e, _, he⟩ := hmem
      by_cases h0 : e.snd.fst ≠ 0
      · rw [if_pos h0] at he
        cases he
        exact h0
      · rw [if_neg h0] at he
        cases he
    have hwn : w ≤ newest := by
      rw [List.mem_filterMap] at hmem
      obtain ⟨e, heE, he⟩ := hmem
      have hb := cycleEntries_bound cfg bot acts db w hw e heE
      by_cases h0 : e.snd.fst ≠ 0
      · rw [if_pos h0] at he
        cases he
        exact hb.resolve_left h0
      · rw [if_neg h0] at he
        cases he
    rw [if_pos hnz]
    exact ⟨newest, get_modlog_update _ _ _, hwn⟩

theorem nzTs_append (a b : List (String × Int × String)) :
    nzTs (a ++ b) = nzTs a ++ nzTs b := by
  unfold nzTs
  rw [List.filterMap_append]

theorem refreshTrace_watermark (cfg : RunCfg) (bot : Option String)
    (cycles : List (List RawAction)) :
    ∀ (db : DB) (acc : List Int),
      get_modlog_state db cfg.setup_id = acc.max? →
      get_modlog_state (refreshTrace cfg bot cycles db).fst cfg.setup_id =
        (acc ++ nzTs (refreshTrace cfg bot cycles db).snd).max? := by
  induction cycles with
  | nil =>
    intro db acc h
    simpa [refreshTrace, nzTs] using h
  | cons acts rest ih =>
    intro db acc h
    dsimp only [refreshTrace]
    have hstep := refresh_cycle_watermark cfg bot acts db acc h
    have hrec := ih (refresh_modlog_cache cfg bot acts db)
      (acc ++ nzTs (cycleEntries cfg bot db acts)) hstep
    rw [hrec, nzTs_append, ← List.append_assoc]

theorem refreshTrace_nodup (cfg : RunCfg) (bot : Option String)
    (cycles : List (List RawAction)) :
    ∀ db : DB, db.modlog_entries.Nodup →
      (refreshTrace cfg bot cycles db).fst.modlog_entries.Nodup := by
  induction cycles with
  | nil => intro db h; exact h
  | cons acts rest ih =>
    intro db h
    exact ih _ (refresh_modlog_nodup cfg bot acts db h)

theorem listModlogRows_pairwise (db : DB) (hnd : db.modlog_entries.Nodup)
    (s f : String) (ma : Option Int) (lim : Nat) (now : Int) :
    (listModlogRows db s f ma lim now).Pairwise
      (fun a b => ¬(a.created_utc = b.created_utc ∧ a.line = b.line)) := by
  unfold listModlogRows
  rw [List.pairwise_reverse]
  apply List.Pairwise.sublist (List.take_sublist _ _)
  have hsym : ∀ {x y : ModlogRow},
      ¬(x.created_utc = y.created_utc ∧ x.line = y.line) →
      ¬(y.created_utc = x.created_utc ∧ y.line = x.line) :=
    fun hab hcon => hab ⟨hcon.1.symm, hcon.2.symm⟩
  rw [(sortDescBy_perm _ _).pairwise_iff hsym]
  have hfil : (db.modlog_entries.filter (fun r =>
      r.setup_id == s && r.fullname == f &&
      (match ma with
       | none => true
       | some a => now - a ≤ r.created_utc))).Nodup := hnd.filter _
  apply List.Pairwise.imp_of_mem ?_ hfil
  intro a b ha hb hne hcon
  rw [List.mem_filter] at ha hb
  have hpa := ha.2
  have hpb := hb.2
  simp only [Bool.and_eq_true, beq_iff_eq] at hpa hpb
  apply hne
  cases a
  cases b
  dsimp only at hcon hpa hpb
  simp only [ModlogRow.mk.injEq]
  exact ⟨hpa.1.1.trans hpb.1.1.symm, hpa.1.2.trans hpb.1.2.symm,
    hcon.1.symm, hcon.2.symm⟩

/-- A raw modlog action with a numeric timestamp. -/
def modActOld : RawAction :=
  { actionName := "approvelink", mod := some "moda", created_utc := some 100,
    details := none, target_fullname := some "t3_x" }

/-- A raw modlog action whose `created_utc` attribute is missing or
non-numeric (coerced to `0.0` by the fetch). -/
def modActNoTime : RawAction :=
  { actionName := "removelink", mod := some "modb", created_utc := none,
    details := none, target_fullname := some "t3_y" }

/-- Database after one modlog refresh cycle that merged `modActOld` and set
the watermark to 100. -/
def dbModlog1 : DB := refresh_modlog_cache sampleCfg none [modActOld] DB.empty

/-- C4 as stated is false: with the stored watermark at 100, a modlog action
without a numeric `created_utc` is coerced to timestamp `0.0`, slips past the
watermark cutoff, and is merged with timestamp 0 below the watermark. -/
theorem C4_counterexample :
    get_modlog_state dbModlog1 "s1" = some 100 ∧
    (⟨"s1", "t3_y", 0, formatModlogEntry modActNoTime⟩ : ModlogRow) ∈
      (refresh_modlog_cache sampleCfg none [modActNoTime] dbModlog1).modlog_entries ∧
    (0 : Int) < 100 := by
  decide

/-- C4 amended: entries merged with a stored watermark `w` have timestamp 0
(unknown creation time) or at least `w`; the watermark never decreases across
a cycle; starting from a fresh store, after any sequence of cycles the
watermark equals the maximum non-zero timestamp ever observed among merged
entries (absent while none was merged); the table never holds duplicate rows
and `list_modlog_entries` never selects two rows with the same
(timestamp, line) pair for a (tenant, item). -/
theorem C4_modlog_watermark (cfg : RunCfg) (bot : Option String)
    (acts : List RawAction) (db : DB) (cycles : List (List RawAction))
    (s f : String) (ma : Option Int) (lim : Nat) (now : Int) :
    (∀ w, get_modlog_state db cfg.setup_id = some w →
      ∀ e ∈ cycleEntries cfg bot db acts, e.snd.fst = 0 ∨ w ≤ e.snd.fst) ∧
    (∀ w, get_modlog_state db cfg.setup_id = some w →
      ∃ w', get_modlog_state (refresh_modlog_cache cfg bot acts db) cfg.setup_id =
        some w' ∧ w ≤ w') ∧
    get_modlog_state (refreshTrace cfg bot cycles DB.empty).fst cfg.setup_id =
      (nzTs (refreshTrace cfg bot cycles DB.empty).snd).max? ∧
    (refreshTrace cfg bot cycles DB.empty).fst.modlog_entries.Nodup ∧
    (listModlogRows (refreshTrace cfg bot cycles DB.empty).fst s f ma lim
        now).Pairwise
      (fun a b => ¬(a.created_utc = b.created_utc ∧ a.line = b.line)) := by
  refine ⟨fun w hw => cycleEntries_bound cfg bot acts db w hw,
    fun w hw => refresh_cycle_monotone cfg bot acts db w hw, ?_, ?_, ?_⟩
  · have h := refreshTrace_watermark cfg bot cycles DB.empty [] rfl
    simpa using h
  · exact refreshTrace_nodup cfg bot cycles DB.empty List.nodup_nil
  · exact listModlogRows_pairwise _
      (refreshTrace_nodup cfg bot cycles DB.empty List.nodup_nil) s f ma lim now

/-- Witness for C4 at concrete inputs: the watermark survives (and does not
decrease through) a merge of a zero-timestamp entry, and after one fresh
cycle it equals the maximum non-zero merged timestamp. -/
theorem C4_modlog_watermark_witness :
    (∃ w', get_modlog_state
        (refresh_modlog_cache sampleCfg none [modActNoTime] dbModlog1) "s1" =
        some w' ∧ (100 : Int) ≤ w') ∧
    get_modlog_state (refreshTrace sampleCfg none [[modActOld]] DB.empty).fst "s1" =
      (nzTs (refreshTrace sampleCfg none [[modActOld]] DB.empty).snd).max? := by
  have h := C4_modlog_watermark sampleCfg none [modActNoTime] dbModlog1
    [[modActOld]] "s1" "t3_x" none 50 1000
  exact ⟨h.2.1 100 (by decide), h.2.2.1⟩
